import Mathlib

/-!
Verification of the `sniff` capture tool's core against its design document.

The Python sources under `src/core` and `src/modules` are shallowly embedded:
pure functions become Lean functions over `List Nat` byte sequences, stateful
objects become explicit state records with their methods as state
transformers, and Python `int` values become `Nat`/`Int` (with explicit
`% 2^w` reductions where the code packs machine words).  Python `float`
fields are modelled as rationals; they never influence the integer-valued
fields the theorems below speak about.
-/

namespace Sniff

/-- Byte sequences are lists of naturals; every byte produced by the
serializers below is < 256.  `struct.pack` in Python raises `struct.error`
on an out-of-range value; the embedding reduces the packed value mod `2^w`,
which agrees with Python on every input Python accepts, and the theorems
restrict to those inputs. -/
abbrev Bytes := List Nat

/-- Little-endian `struct.pack` of one unsigned 32-bit value (format `<I`). -/
def packU32le (n : Nat) : Bytes :=
  [n % 256, n / 256 % 256, n / 65536 % 256, n / 16777216 % 256]

/-- Little-endian `struct.pack` of one unsigned 16-bit value (format `<H`). -/
def packU16le (n : Nat) : Bytes :=
  [n % 256, n / 256 % 256]

/-- Little-endian `struct.unpack` of an unsigned 32-bit value from the first
four bytes (format `<I`). -/
def unpackU32le (bs : Bytes) : Nat :=
  bs.getD 0 0 + bs.getD 1 0 * 256 + bs.getD 2 0 * 65536 + bs.getD 3 0 * 16777216

/-- Big-endian `struct.unpack` of an unsigned 32-bit value from the first
four bytes (format `>I` or `!I`). -/
def unpackU32be (bs : Bytes) : Nat :=
  bs.getD 3 0 + bs.getD 2 0 * 256 + bs.getD 1 0 * 65536 + bs.getD 0 0 * 16777216

/-- Little-endian `struct.unpack` of an unsigned 16-bit value from the first
two bytes (format `<H`). -/
def unpackU16le (bs : Bytes) : Nat :=
  bs.getD 0 0 + bs.getD 1 0 * 256

/-- Big-endian `struct.unpack` of an unsigned 16-bit value from the first
two bytes (format `>H` or `!H`). -/
def unpackU16be (bs : Bytes) : Nat :=
  bs.getD 1 0 + bs.getD 0 0 * 256

/-! Constants from `src/core/constants.py`. -/

def PCAP_MAGIC : Nat := 0xa1b2c3d4

def PCAP_VERSION_MAJOR : Nat := 2

def PCAP_VERSION_MINOR : Nat := 4

def PCAP_LINKTYPE_ETHERNET : Nat := 1

def DEFAULT_SNAPLEN : Nat := 1518

def ETHERTYPE_IP : Nat := 0x0800

def ETHERTYPE_ARP : Nat := 0x0806

def ETHERTYPE_IPV6 : Nat := 0x86DD

def ETHERTYPE_VLAN : Nat := 0x8100

def PROTO_ICMP : Nat := 1

def PROTO_TCP : Nat := 6

def PROTO_UDP : Nat := 17

/-! ## Capture File Codec (`src/core/pcap_writer.py`) -/

/-- PCAP file global header (24 bytes), from the `PcapGlobalHeader`
dataclass. -/
structure PcapGlobalHeader where
  magic : Nat := PCAP_MAGIC
  version_major : Nat := PCAP_VERSION_MAJOR
  version_minor : Nat := PCAP_VERSION_MINOR
  thiszone : Nat := 0
  sigfigs : Nat := 0
  snaplen : Nat := DEFAULT_SNAPLEN
  linktype : Nat := PCAP_LINKTYPE_ETHERNET
deriving DecidableEq

/-- `PcapGlobalHeader.to_bytes`: `struct.pack('<IHHIIII', ...)`. -/
def PcapGlobalHeader.to_bytes (h : PcapGlobalHeader) : Bytes :=
  packU32le h.magic ++ packU16le h.version_major ++ packU16le h.version_minor ++
    packU32le h.thiszone ++ packU32le h.sigfigs ++ packU32le h.snaplen ++
    packU32le h.linktype

/-- `PcapGlobalHeader.from_bytes`: `none` models the `ValueError` raised on a
short buffer or an unknown magic value.  The magic read little-endian selects
the byte order used for all seven fields. -/
def PcapGlobalHeader.from_bytes (data : Bytes) : Option PcapGlobalHeader :=
  if data.length < 24 then none
  else
    let magic := unpackU32le data
    if magic = 0xa1b2c3d4 then
      some { magic := unpackU32le data
             version_major := unpackU16le (data.drop 4)
             version_minor := unpackU16le (data.drop 6)
             thiszone := unpackU32le (data.drop 8)
             sigfigs := unpackU32le (data.drop 12)
             snaplen := unpackU32le (data.drop 16)
             linktype := unpackU32le (data.drop 20) }
    else if magic = 0xd4c3b2a1 then
      some { magic := unpackU32be data
             version_major := unpackU16be (data.drop 4)
             version_minor := unpackU16be (data.drop 6)
             thiszone := unpackU32be (data.drop 8)
             sigfigs := unpackU32be (data.drop 12)
             snaplen := unpackU32be (data.drop 16)
             linktype := unpackU32be (data.drop 20) }
    else none

/-- PCAP per-record header (16 bytes), from the `PcapPacketHeader`
dataclass. -/
structure PcapPacketHeader where
  ts_sec : Nat
  ts_usec : Nat
  caplen : Nat
  origlen : Nat
deriving DecidableEq

/-- `PcapPacketHeader.to_bytes`: `struct.pack('<IIII', ...)`.  The writer
always packs records little-endian. -/
def PcapPacketHeader.to_bytes (h : PcapPacketHeader) : Bytes :=
  packU32le h.ts_sec ++ packU32le h.ts_usec ++ packU32le h.caplen ++
    packU32le h.origlen

/-- `PcapPacketHeader.from_bytes(data, big_endian)`:
`struct.unpack('>IIII' or '<IIII', data[:16])`.  The source raises on fewer
than 16 bytes; the only caller checks the length first, and the embedding is
total with missing bytes read as zero. -/
def PcapPacketHeader.from_bytes (data : Bytes) (big_endian : Bool) :
    PcapPacketHeader :=
  if big_endian then
    { ts_sec := unpackU32be data
      ts_usec := unpackU32be (data.drop 4)
      caplen := unpackU32be (data.drop 8)
      origlen := unpackU32be (data.drop 12) }
  else
    { ts_sec := unpackU32le data
      ts_usec := unpackU32le (data.drop 4)
      caplen := unpackU32le (data.drop 8)
      origlen := unpackU32le (data.drop 12) }

/-- `PacketInfo` from `src/core/decoder.py`: the queue/display record. -/
structure PacketInfo where
  stt : Nat
  ts_sec : Nat
  ts_usec : Nat
  caplen : Nat := 0
  origlen : Nat := 0
  data : Bytes := []
deriving DecidableEq

/-- State of a `PcapWriter`.  `fileOpen` models `self._file is not None` and
`fileData` the bytes the OS file holds; the other fields are the writer's
attributes of the same names (without their leading underscores). -/
structure PcapWriter where
  filepath : String
  snaplen : Nat
  batch_size : Nat
  linktype : Nat
  fileOpen : Bool
  fileData : Bytes
  buffer : Bytes
  packet_count : Nat
  byte_count : Nat
  pending_packets : Nat
  closed : Bool
deriving DecidableEq

/-- `PcapWriter.__init__(filepath, snaplen, batch_size, linktype)`. -/
def PcapWriter.init (filepath : String) (snaplen : Nat := DEFAULT_SNAPLEN)
    (batch_size : Nat := 100) (linktype : Nat := PCAP_LINKTYPE_ETHERNET) :
    PcapWriter :=
  { filepath := filepath, snaplen := snaplen, batch_size := batch_size
    linktype := linktype, fileOpen := false, fileData := [], buffer := []
    packet_count := 0, byte_count := 0, pending_packets := 0, closed := false }

/-- `PcapWriter.open`: open the file and write the 24-byte global header
immediately (named `openFile` because `open` is a Lean keyword). -/
def PcapWriter.openFile (w : PcapWriter) : PcapWriter :=
  { w with fileOpen := true
           fileData := PcapGlobalHeader.to_bytes
             { snaplen := w.snaplen, linktype := w.linktype } }

/-- The record header and captured payload that `write_packet` constructs
(source lines 133-146): the default original length is `len(data)`, the
captured length is `min(len(data), snaplen)` and the stored payload is
`data[:caplen]`. -/
def PcapWriter.record (snaplen ts_sec ts_usec : Nat) (data : Bytes)
    (origlen : Option Nat) : PcapPacketHeader × Bytes :=
  let origlen := origlen.getD data.length
  let caplen := min data.length snaplen
  let captured_data := data.take caplen
  ({ ts_sec := ts_sec, ts_usec := ts_usec, caplen := caplen
     origlen := origlen }, captured_data)

/-- `PcapWriter._flush_buffer`: append the buffer to the file when both the
buffer and the file are live. -/
def PcapWriter.flush_buffer (w : PcapWriter) : PcapWriter :=
  if w.buffer ≠ [] ∧ w.fileOpen then
    { w with fileData := w.fileData ++ w.buffer, buffer := []
             pending_packets := 0 }
  else w

/-- `PcapWriter.write_packet(ts_sec, ts_usec, data, origlen=None)`: a silent
no-op after close or before open; otherwise buffer the record and flush once
`batch_size` records are pending. -/
def PcapWriter.write_packet (w : PcapWriter) (ts_sec ts_usec : Nat)
    (data : Bytes) (origlen : Option Nat := none) : PcapWriter :=
  if w.closed || !w.fileOpen then w
  else
    let r := PcapWriter.record w.snaplen ts_sec ts_usec data origlen
    let w' := { w with
      buffer := w.buffer ++ r.1.to_bytes ++ r.2
      pending_packets := w.pending_packets + 1
      packet_count := w.packet_count + 1
      byte_count := w.byte_count + r.1.caplen }
    if w'.pending_packets ≥ w'.batch_size then w'.flush_buffer else w'

/-- `PcapWriter.write_packet_info`: Python truthiness of `pkt_info.origlen`
(an int) is `≠ 0`. -/
def PcapWriter.write_packet_info (w : PcapWriter) (pkt_info : PacketInfo) :
    PcapWriter :=
  let origlen := if pkt_info.origlen ≠ 0 then pkt_info.origlen
                 else pkt_info.data.length
  w.write_packet pkt_info.ts_sec pkt_info.ts_usec pkt_info.data (some origlen)

/-- `PcapWriter.flush`: force the buffer out (the OS-level `file.flush()` does
not change the byte content). -/
def PcapWriter.flush (w : PcapWriter) : PcapWriter :=
  w.flush_buffer

/-- `PcapWriter.close`: idempotent; flushes the pending buffer, then drops the
file handle.  The bytes already on disk (`fileData`) persist. -/
def PcapWriter.close (w : PcapWriter) : PcapWriter :=
  if w.closed then w
  else
    let w' := ({ w with closed := true } : PcapWriter).flush_buffer
    { w' with fileOpen := false }

/-- `PcapReader.open`: read the 24-byte global header, validate it, and record
whether the magic selects big-endian.  `none` models the `ValueError`s. -/
def PcapReader.openHeader (bytes : Bytes) : Option (PcapGlobalHeader × Bool) :=
  if bytes.length < 24 then none
  else
    match PcapGlobalHeader.from_bytes (bytes.take 24) with
    | none => none
    | some h => some (h, unpackU32le bytes == 0xd4c3b2a1)

/-- `PcapReader.read_packet`: `none` at EOF (short header read or short
payload read); otherwise the next record and the remaining bytes.  `stt` is
the count of packets already read (`self._packet_stt`). -/
def PcapReader.read_packet (big_endian : Bool) (stt : Nat) (bytes : Bytes) :
    Option (PacketInfo × Bytes) :=
  if bytes.length < 16 then none
  else
    let pkt_header := PcapPacketHeader.from_bytes (bytes.take 16) big_endian
    let rest := bytes.drop 16
    let data := rest.take pkt_header.caplen
    if data.length < pkt_header.caplen then none
    else
      some ({ stt := stt + 1, ts_sec := pkt_header.ts_sec
              ts_usec := pkt_header.ts_usec, caplen := pkt_header.caplen
              origlen := pkt_header.origlen, data := data },
            rest.drop pkt_header.caplen)

/-- Iterating `PcapReader.read_packet` to EOF (`PcapReader.__iter__`). -/
def PcapReader.readPacketsFrom (big_endian : Bool) (stt : Nat) (bytes : Bytes) :
    List PacketInfo :=
  match h : PcapReader.read_packet big_endian stt bytes with
  | none => []
  | some (pkt, rest) =>
      have hlen : rest.length < bytes.length := by
        unfold PcapReader.read_packet at h
        split at h
        · exact absurd h (by simp)
        next h16 =>
          dsimp only at h
          split at h
          · exact absurd h (by simp)
          next hshort =>
            rw [Option.some.injEq] at h
            have h2 := congrArg Prod.snd h
            simp only at h2
            rw [← h2]
            simp only [List.length_drop]
            omega
      pkt :: PcapReader.readPacketsFrom big_endian (stt + 1) rest
termination_by bytes.length

/-- Opening a capture file and iterating all of its records: the global
header, the endianness flag, and the record sequence with reader-local
sequence numbers starting at 1. -/
def PcapReader.readFile (bytes : Bytes) :
    Option (PcapGlobalHeader × Bool × List PacketInfo) :=
  match PcapReader.openHeader bytes with
  | none => none
  | some (h, be) => some (h, be, PcapReader.readPacketsFrom be 0 (bytes.drop 24))

/-! ## Protocol Decoder (`src/core/decoder.py`) -/

/-- One lowercase hexadecimal digit. -/
def hexChar (n : Nat) : Char :=
  if n < 10 then Char.ofNat (48 + n) else Char.ofNat (87 + n)

/-- Python `f'{n:0wx}'`: lowercase hexadecimal, zero-padded on the left to
`width` digits. -/
def pyHex (width n : Nat) : String :=
  let ds := Nat.toDigits 16 n
  String.mk (List.replicate (width - ds.length) '0' ++ ds)

/-- `mac_to_str`: colon-joined two-digit hex of each byte. -/
def mac_to_str (mac_bytes : Bytes) : String :=
  String.intercalate ":" (mac_bytes.map fun b => pyHex 2 b)

/-- `ETHERTYPE_NAMES.get(ethertype, f"0x{ethertype:04x}")`. -/
def ethertypeName (et : Nat) : String :=
  if et = ETHERTYPE_IP then "IPv4"
  else if et = ETHERTYPE_ARP then "ARP"
  else if et = ETHERTYPE_IPV6 then "IPv6"
  else if et = ETHERTYPE_VLAN then "VLAN"
  else "0x" ++ pyHex 4 et

/-- `PROTO_NAMES.get(protocol, str(protocol))`. -/
def protoName (p : Nat) : String :=
  if p = 1 then "ICMP"
  else if p = 6 then "TCP"
  else if p = 17 then "UDP"
  else if p = 58 then "ICMPv6"
  else toString p

/-- `ICMP_TYPE_NAMES.get(icmp_type, f"Type {icmp_type}")`. -/
def icmpTypeName (t : Nat) : String :=
  if t = 0 then "Echo Reply"
  else if t = 3 then "Destination Unreachable"
  else if t = 5 then "Redirect"
  else if t = 8 then "Echo Request"
  else if t = 11 then "Time Exceeded"
  else "Type " ++ toString t

/-- `ARP_OP_NAMES.get(opcode, f"Op {opcode}")`. -/
def arpOpName (op : Nat) : String :=
  if op = 1 then "Request"
  else if op = 2 then "Reply"
  else "Op " ++ toString op

/-- `WELL_KNOWN_PORTS.get(port, "")` from `src/core/constants.py`. -/
def get_port_name (port : Nat) : String :=
  if port = 20 then "FTP-DATA" else if port = 21 then "FTP"
  else if port = 22 then "SSH" else if port = 23 then "TELNET"
  else if port = 25 then "SMTP" else if port = 53 then "DNS"
  else if port = 67 then "DHCP-S" else if port = 68 then "DHCP-C"
  else if port = 80 then "HTTP" else if port = 110 then "POP3"
  else if port = 123 then "NTP" else if port = 143 then "IMAP"
  else if port = 443 then "HTTPS" else if port = 445 then "SMB"
  else if port = 993 then "IMAPS" else if port = 995 then "POP3S"
  else if port = 3306 then "MySQL" else if port = 3389 then "RDP"
  else if port = 5432 then "PostgreSQL" else if port = 6379 then "Redis"
  else if port = 8080 then "HTTP-ALT" else if port = 8443 then "HTTPS-ALT"
  else ""

/-- `tcp_flags_str` from `src/core/constants.py`: the flag names whose bit is
set, in FIN,SYN,RST,PSH,ACK,URG,ECE,CWR order, bracketed; empty when no flag
is set. -/
def tcp_flags_str (flags : Nat) : String :=
  let pairs : List (Nat × String) :=
    [(0x01, "FIN"), (0x02, "SYN"), (0x04, "RST"), (0x08, "PSH"),
     (0x10, "ACK"), (0x20, "URG"), (0x40, "ECE"), (0x80, "CWR")]
  let result := (pairs.filter fun p => flags &&& p.1 ≠ 0).map Prod.snd
  if result ≠ [] then "[" ++ String.intercalate "," result ++ "]" else ""

/-- `socket.inet_ntoa`: dotted decimal of the first four bytes. -/
def inet_ntoa (bs : Bytes) : String :=
  toString (bs.getD 0 0) ++ "." ++ toString (bs.getD 1 0) ++ "." ++
    toString (bs.getD 2 0) ++ "." ++ toString (bs.getD 3 0)

/-- `socket.inet_ntop(AF_INET6, ·)` is an OS library call; it is modelled as
the uncompressed colon-hex form of the eight 16-bit groups, which is injective
on the 16-byte address.  No claim depends on this rendering. -/
def inet_ntop6 (bs : Bytes) : String :=
  String.intercalate ":" ((List.range 8).map fun i =>
    pyHex 1 (unpackU16be (bs.drop (2 * i))))

structure EthernetHeader where
  dst_mac : String
  src_mac : String
  ethertype : Nat
  ethertype_name : String := ""
deriving DecidableEq

structure IPv4Header where
  version : Nat
  ihl : Nat
  tos : Nat
  total_length : Nat
  identification : Nat
  flags : Nat
  fragment_offset : Nat
  ttl : Nat
  protocol : Nat
  checksum : Nat
  src_ip : String
  dst_ip : String
  protocol_name : String := ""
deriving DecidableEq

structure IPv6Header where
  version : Nat
  traffic_class : Nat
  flow_label : Nat
  payload_length : Nat
  next_header : Nat
  hop_limit : Nat
  src_ip : String
  dst_ip : String
deriving DecidableEq

structure TCPHeader where
  src_port : Nat
  dst_port : Nat
  seq : Nat
  ack : Nat
  data_offset : Nat
  reserved : Nat
  flags : Nat
  window : Nat
  checksum : Nat
  urgent : Nat
  flags_str : String := ""
deriving DecidableEq

structure UDPHeader where
  src_port : Nat
  dst_port : Nat
  length : Nat
  checksum : Nat
deriving DecidableEq

structure ICMPHeader where
  icmp_type : Nat
  code : Nat
  checksum : Nat
  type_name : String := ""
deriving DecidableEq

structure ARPHeader where
  hw_type : Nat
  proto_type : Nat
  hw_size : Nat
  proto_size : Nat
  opcode : Nat
  sender_mac : String
  sender_ip : String
  target_mac : String
  target_ip : String
  op_name : String := ""
deriving DecidableEq

/-- `DecodedPacket`: optional presence of each header plus derived summary
fields, with the dataclass defaults. -/
structure DecodedPacket where
  raw_data : Bytes
  ethernet : Option EthernetHeader := none
  ipv4 : Option IPv4Header := none
  ipv6 : Option IPv6Header := none
  tcp : Option TCPHeader := none
  udp : Option UDPHeader := none
  icmp : Option ICMPHeader := none
  arp : Option ARPHeader := none
  protocol_name : String := "UNKNOWN"
  src_addr : String := ""
  dst_addr : String := ""
  src_port : Nat := 0
  dst_port : Nat := 0
  info_str : String := ""
  payload : Bytes := []
deriving DecidableEq

/-- `decode_ethernet`: 14-byte header; a frame whose ethertype is the VLAN tag
value needs 18 bytes, re-reads the real ethertype at offset 16 and advances
the offset to 18. -/
def decode_ethernet (data : Bytes) : Option EthernetHeader × Nat :=
  if data.length < 14 then (none, 0)
  else
    let dst_mac := mac_to_str (data.take 6)
    let src_mac := mac_to_str ((data.drop 6).take 6)
    let ethertype := unpackU16be (data.drop 12)
    if ethertype = ETHERTYPE_VLAN then
      if data.length < 18 then (none, 0)
      else
        let ethertype := unpackU16be (data.drop 16)
        (some { dst_mac := dst_mac, src_mac := src_mac, ethertype := ethertype
                ethertype_name := ethertypeName ethertype }, 18)
    else
      (some { dst_mac := dst_mac, src_mac := src_mac, ethertype := ethertype
              ethertype_name := ethertypeName ethertype }, 14)

/-- `decode_ipv4`: variable-length header, rejected when the version nibble is
not 4 or fewer than `ihl` bytes remain. -/
def decode_ipv4 (data : Bytes) : Option IPv4Header × Nat :=
  if data.length < 20 then (none, 0)
  else
    let version_ihl := data.getD 0 0
    let version := (version_ihl >>> 4) &&& 0x0F
    let ihl := (version_ihl &&& 0x0F) * 4
    if version ≠ 4 ∨ data.length < ihl then (none, 0)
    else
      let flags_frag := unpackU16be (data.drop 6)
      let protocol := data.getD 9 0
      (some { version := version, ihl := ihl, tos := data.getD 1 0
              total_length := unpackU16be (data.drop 2)
              identification := unpackU16be (data.drop 4)
              flags := (flags_frag >>> 13) &&& 0x07
              fragment_offset := flags_frag &&& 0x1FFF
              ttl := data.getD 8 0, protocol := protocol
              checksum := unpackU16be (data.drop 10)
              src_ip := inet_ntoa (data.drop 12)
              dst_ip := inet_ntoa (data.drop 16)
              protocol_name := protoName protocol }, ihl)

/-- `decode_ipv6`: fixed 40-byte header, rejected when the version is not 6. -/
def decode_ipv6 (data : Bytes) : Option IPv6Header × Nat :=
  if data.length < 40 then (none, 0)
  else
    let first_word := unpackU32be data
    let version := (first_word >>> 28) &&& 0x0F
    if version ≠ 6 then (none, 0)
    else
      (some { version := version
              traffic_class := (first_word >>> 20) &&& 0xFF
              flow_label := first_word &&& 0xFFFFF
              payload_length := unpackU16be (data.drop 4)
              next_header := data.getD 6 0, hop_limit := data.getD 7 0
              src_ip := inet_ntop6 (data.drop 8)
              dst_ip := inet_ntop6 (data.drop 24) }, 40)

/-- `decode_tcp`: fixed 20-byte base header; the returned length is the
data-offset nibble times 4. -/
def decode_tcp (data : Bytes) : Option TCPHeader × Nat :=
  if data.length < 20 then (none, 0)
  else
    let data_offset_reserved := data.getD 12 0
    let data_offset := ((data_offset_reserved >>> 4) &&& 0x0F) * 4
    let flags := data.getD 13 0
    (some { src_port := unpackU16be data
            dst_port := unpackU16be (data.drop 2)
            seq := unpackU32be (data.drop 4)
            ack := unpackU32be (data.drop 8)
            data_offset := data_offset
            reserved := data_offset_reserved &&& 0x0F
            flags := flags
            window := unpackU16be (data.drop 14)
            checksum := unpackU16be (data.drop 16)
            urgent := unpackU16be (data.drop 18)
            flags_str := tcp_flags_str flags }, data_offset)

/-- `decode_udp`: fixed 8-byte header. -/
def decode_udp (data : Bytes) : Option UDPHeader × Nat :=
  if data.length < 8 then (none, 0)
  else
    (some { src_port := unpackU16be data
            dst_port := unpackU16be (data.drop 2)
            length := unpackU16be (data.drop 4)
            checksum := unpackU16be (data.drop 6) }, 8)

/-- `decode_icmp`: fixed 8-byte header. -/
def decode_icmp (data : Bytes) : Option ICMPHeader × Nat :=
  if data.length < 8 then (none, 0)
  else
    let icmp_type := data.getD 0 0
    (some { icmp_type := icmp_type, code := data.getD 1 0
            checksum := unpackU16be (data.drop 2)
            type_name := icmpTypeName icmp_type }, 8)

/-- `decode_arp`: fixed 28-byte header. -/
def decode_arp (data : Bytes) : Option ARPHeader × Nat :=
  if data.length < 28 then (none, 0)
  else
    let opcode := unpackU16be (data.drop 6)
    (some { hw_type := unpackU16be data
            proto_type := unpackU16be (data.drop 2)
            hw_size := data.getD 4 0, proto_size := data.getD 5 0
            opcode := opcode
            sender_mac := mac_to_str ((data.drop 8).take 6)
            sender_ip := inet_ntoa (data.drop 14)
            target_mac := mac_to_str ((data.drop 18).take 6)
            target_ip := inet_ntoa (data.drop 24)
            op_name := arpOpName opcode }, 28)

/-- Python `f"{a} → {b}{port_info}"` prefix shared by the TCP/UDP summary
lines of `decode_packet`: the first well-known name among the two ports,
parenthesised, else empty. -/
def portInfo (src_port dst_port : Nat) : String :=
  if get_port_name src_port ≠ "" then " (" ++ get_port_name src_port ++ ")"
  else if get_port_name dst_port ≠ "" then " (" ++ get_port_name dst_port ++ ")"
  else ""

/-- `decode_packet`: layer dispatch exactly as in the source, each absent or
malformed layer leaving its field `none` and ending the descent. -/
def decode_packet (data : Bytes) : DecodedPacket :=
  let result : DecodedPacket := { raw_data := data }
  match decode_ethernet data with
  | (none, _) => result
  | (some eth, eth_len) =>
    let result := { result with ethernet := some eth }
    let offset := eth_len
    if eth.ethertype = ETHERTYPE_IP then
      match decode_ipv4 (data.drop offset) with
      | (none, _) => result
      | (some ipv4, ip_len) =>
        let result := { result with
          ipv4 := some ipv4, src_addr := ipv4.src_ip, dst_addr := ipv4.dst_ip,
          protocol_name := ipv4.protocol_name }
        let offset := offset + ip_len
        if ipv4.protocol = PROTO_TCP then
          match decode_tcp (data.drop offset) with
          | (none, _) => result
          | (some tcp, tcp_len) =>
            { result with
              tcp := some tcp, src_port := tcp.src_port,
              dst_port := tcp.dst_port,
              payload := data.drop (offset + tcp_len),
              info_str := toString tcp.src_port ++ " → " ++
                toString tcp.dst_port ++ portInfo tcp.src_port tcp.dst_port ++
                " " ++ tcp.flags_str ++ " Seq=" ++ toString tcp.seq }
        else if ipv4.protocol = PROTO_UDP then
          match decode_udp (data.drop offset) with
          | (none, _) => result
          | (some udp, udp_len) =>
            { result with
              udp := some udp, src_port := udp.src_port,
              dst_port := udp.dst_port,
              payload := data.drop (offset + udp_len),
              info_str := toString udp.src_port ++ " → " ++
                toString udp.dst_port ++ portInfo udp.src_port udp.dst_port ++
                " Len=" ++ toString udp.length }
        else if ipv4.protocol = PROTO_ICMP then
          match decode_icmp (data.drop offset) with
          | (none, _) => result
          | (some icmp, icmp_len) =>
            { result with
              icmp := some icmp,
              payload := data.drop (offset + icmp_len),
              info_str := icmp.type_name ++ " (code=" ++ toString icmp.code ++
                ")" }
        else result
    else if eth.ethertype = ETHERTYPE_IPV6 then
      match decode_ipv6 (data.drop offset) with
      | (none, _) => result
      | (some ipv6, ip_len) =>
        let result := { result with
          ipv6 := some ipv6, src_addr := ipv6.src_ip, dst_addr := ipv6.dst_ip,
          protocol_name := "IPv6" }
        let offset := offset + ip_len
        if ipv6.next_header = PROTO_TCP then
          match decode_tcp (data.drop offset) with
          | (none, _) => result
          | (some tcp, _) =>
            { result with
              tcp := some tcp, protocol_name := "TCP",
              src_port := tcp.src_port, dst_port := tcp.dst_port,
              info_str := toString tcp.src_port ++ " → " ++
                toString tcp.dst_port ++ " " ++ tcp.flags_str }
        else if ipv6.next_header = PROTO_UDP then
          match decode_udp (data.drop offset) with
          | (none, _) => result
          | (some udp, _) =>
            { result with
              udp := some udp, protocol_name := "UDP",
              src_port := udp.src_port, dst_port := udp.dst_port,
              info_str := toString udp.src_port ++ " → " ++
                toString udp.dst_port }
        else result
    else if eth.ethertype = ETHERTYPE_ARP then
      match decode_arp (data.drop offset) with
      | (none, _) => result
      | (some arp, _) =>
        { result with
          arp := some arp, protocol_name := "ARP",
          src_addr := arp.sender_ip, dst_addr := arp.target_ip,
          info_str := arp.op_name ++ ": " ++ arp.sender_ip ++ " → " ++
            arp.target_ip }
    else result

/-! ## Capture Engine statistics (`src/core/capture.py`) -/

/-- `CaptureStats`: counters are Python ints (`Int`; the kernel-drop fields
can hold the `-1` sentinel), wall-clock times and rates are Python floats,
modelled as rationals.  Field names drop the source's leading underscores. -/
structure CaptureStats where
  packets : Int := 0
  bytes : Int := 0
  dropped : Int := 0
  queue_dropped : Int := 0
  start_time : ℚ := 0
  last_update : ℚ := 0
  pps : ℚ := 0
  bps : ℚ := 0
  prev_packets : Int := 0
  prev_bytes : Int := 0
  prev_time : ℚ := 0
  initial_kernel_drops : Int := 0
  current_kernel_drops : Int := 0
deriving DecidableEq

/-- `CaptureStats.update_rates` with `time.time()` passed in as `now`:
recompute the rates from counter deltas when wall time advanced, then set
`dropped = max(0, current_kernel_drops - initial_kernel_drops)` — the
source's comment says "kernel drops since start + queue drops" but the code
adds no queue-drop term. -/
def CaptureStats.update_rates (s : CaptureStats) (now : ℚ) : CaptureStats :=
  let elapsed := now - s.prev_time
  let s :=
    if 0 < elapsed then
      { s with pps := ((s.packets : ℚ) - (s.prev_packets : ℚ)) / elapsed
               bps := ((s.bytes : ℚ) - (s.prev_bytes : ℚ)) / elapsed
               prev_packets := s.packets
               prev_bytes := s.bytes
               prev_time := now }
    else s
  { s with last_update := now
           dropped := max 0 (s.current_kernel_drops - s.initial_kernel_drops) }

/-- `CaptureStats.reset` with `time.time()` passed in as `now`: zero all
counters and mark the kernel-drop baseline unset (`-1`). -/
def CaptureStats.reset (now : ℚ) : CaptureStats :=
  { packets := 0, bytes := 0, dropped := 0, queue_dropped := 0
    start_time := now, last_update := now, pps := 0, bps := 0
    prev_packets := 0, prev_bytes := 0, prev_time := now
    initial_kernel_drops := -1, current_kernel_drops := 0 }

/-- `CaptureEngine._update_drop_stats` on a successful read of the
per-interface kernel counter `kernel_drops`: establish the baseline on the
first read after a reset, then record the current absolute value. -/
def CaptureStats.update_drop_stats (s : CaptureStats) (kernel_drops : Int) :
    CaptureStats :=
  let s := if s.initial_kernel_drops < 0
           then { s with initial_kernel_drops := kernel_drops } else s
  { s with current_kernel_drops := kernel_drops }

/-! ## Hourly Rotator (`src/core/rotator.py`)

Wall-clock instants are modelled as a day index plus hour, minute and second
(`datetime` restricted to what the rotator reads of it); `strftime` date and
hour renderings become decimal strings of those indices, which keeps the
formats distinct and lexicographically comparable exactly as the sources'
`%Y-%m-%d`/`%H` strings are.  Date-named storage partitions on disk are the
`dirs` field; the rotation callback is modelled by the `rotate_events` log,
appended to once per invocation when a callback is registered
(`has_on_rotate`). -/

structure DT where
  day : Nat
  hour : Nat
  minute : Nat
  second : Nat
deriving DecidableEq

def DEFAULT_RETENTION_DAYS : Nat := 7

/-- `HourlyRotator._get_hour_start`: `dt.replace(minute=0, second=0)`. -/
def DT.hourStart (dt : DT) : DT :=
  { dt with minute := 0, second := 0 }

/-- `HourlyRotator._get_next_hour`: start of the following hour, rolling into
the next day after hour 23. -/
def DT.nextHour (dt : DT) : DT :=
  if dt.hour + 1 < 24 then { day := dt.day, hour := dt.hour + 1, minute := 0, second := 0 }
  else { day := dt.day + 1, hour := 0, minute := 0, second := 0 }

/-- The `%Y-%m-%d` rendering of a day index (see the section comment). -/
def DT.dateStr (dt : DT) : String :=
  toString dt.day

/-- The `%H` rendering of the hour. -/
def DT.hourStr (dt : DT) : String :=
  toString dt.hour

/-- `HourlyRotator` state: configuration, the open writer (if any) with its
path and hour bookkeeping, counters, the modelled disk partitions and the
callback log. -/
structure HourlyRotator where
  base_dir : String
  interface : String
  snaplen : Nat := DEFAULT_SNAPLEN
  retention_days : Nat := DEFAULT_RETENTION_DAYS
  has_on_rotate : Bool := false
  batch_size : Nat := 100
  current_writer : Option PcapWriter := none
  current_filepath : Option String := none
  current_hour : Option DT := none
  next_rotate_time : Option DT := none
  packet_count : Nat := 0
  byte_count : Nat := 0
  file_count : Nat := 0
  closed : Bool := false
  dirs : List Nat := []
  rotate_events : List (String × String × String) := []
deriving DecidableEq

/-- `HourlyRotator._get_filepath`:
`base_dir/YYYY-MM-DD/{interface}_{YYYY-MM-DD}_{HH}.pcap`. -/
def HourlyRotator.get_filepath (r : HourlyRotator) (dt : DT) : String :=
  r.base_dir ++ "/" ++ dt.dateStr ++ "/" ++ r.interface ++ "_" ++ dt.dateStr ++
    "_" ++ dt.hourStr ++ ".pcap"

/-- `HourlyRotator._get_time_window`: `YYYY-MM-DD_HH`. -/
def HourlyRotator.get_time_window (dt : DT) : String :=
  dt.dateStr ++ "_" ++ dt.hourStr

/-- `HourlyRotator._open_new_file`: record the hour and the precomputed next
rotation instant, then create and open a fresh `PcapWriter` for the hour's
path. -/
def HourlyRotator.open_new_file (r : HourlyRotator) (dt : DT) : HourlyRotator :=
  let filepath := r.get_filepath dt
  { r with current_hour := some dt.hourStart
           next_rotate_time := some dt.nextHour
           current_filepath := some filepath
           current_writer := some
             ((PcapWriter.init filepath r.snaplen r.batch_size).openFile)
           file_count := r.file_count + 1 }

/-- `HourlyRotator._close_current_file`: close the writer and return the old
path (the source returns `str(self._current_filepath)`, which renders `None`
as the string "None"). -/
def HourlyRotator.close_current_file (r : HourlyRotator) :
    Option String × HourlyRotator :=
  match r.current_writer with
  | some _ =>
      (some (r.current_filepath.elim "None" id),
       { r with current_writer := none, current_filepath := none })
  | none => (none, r)

/-- `HourlyRotator._cleanup_old_files`, with `datetime.now()` passed as
`now`: remove every dated partition whose date sorts strictly before
`now - retention_days` (day indices compare as the date strings do). -/
def HourlyRotator.cleanup_old_files (r : HourlyRotator) (now : DT) :
    HourlyRotator :=
  if r.retention_days = 0 then r
  else
    let cutoff_day := now.day - r.retention_days
    { r with dirs := r.dirs.filter fun d => !decide (d < cutoff_day) }

/-- `HourlyRotator._do_rotate`: close the old file, open a new file for
`now`, invoke the rotation callback with the closed path and the closed
hour's time window, then run retention cleanup. -/
def HourlyRotator.do_rotate (r : HourlyRotator) (now : DT) : HourlyRotator :=
  let old_hour := r.current_hour
  let (old_path, r) := r.close_current_file
  let r := r.open_new_file now
  let r :=
    match old_path, old_hour with
    | some p, some h =>
        if r.has_on_rotate then
          { r with rotate_events :=
              r.rotate_events ++
                [(p, r.interface, HourlyRotator.get_time_window h)] }
        else r
    | _, _ => r
  if r.retention_days > 0 then r.cleanup_old_files now else r

/-- `HourlyRotator.force_rotate`, with `datetime.now()` passed as `now`:
rotate immediately when a file is open. -/
def HourlyRotator.force_rotate (r : HourlyRotator) (now : DT) : HourlyRotator :=
  match r.current_writer with
  | some _ => r.do_rotate now
  | none => r

/-- `HourlyRotator.close`: idempotent; close the current file and issue the
final rotation callback for it, without opening a replacement or running
cleanup. -/
def HourlyRotator.close (r : HourlyRotator) : HourlyRotator :=
  if r.closed then r
  else
    let r := { r with closed := true }
    let old_hour := r.current_hour
    let (old_path, r) := r.close_current_file
    match old_path, old_hour with
    | some p, some h =>
        if r.has_on_rotate then
          { r with rotate_events :=
              r.rotate_events ++
                [(p, r.interface, HourlyRotator.get_time_window h)] }
        else r
    | _, _ => r

/-! ## Analysis Job Scheduler (`src/modules/runner.py`)

`queue.PriorityQueue` stores jobs in a `heapq` binary heap over the job's
`__lt__`, which compares priorities only.  The heap algorithms below are the
CPython `heapq` functions (`heappush` = append then `_siftdown`; `heappop` =
pop the last element, move it to the root and `_siftup`), specialised to
`AnalysisJob`. -/

/-- `AnalysisJob`: path, interface, time window and priority (lower sorts
first). -/
structure AnalysisJob where
  pcap_path : String
  interface : String
  time_window : String
  priority : Int := 0
deriving DecidableEq

instance : Inhabited AnalysisJob :=
  ⟨{ pcap_path := "", interface := "", time_window := "", priority := 0 }⟩

/-- `AnalysisJob.__lt__`: comparison is by priority alone. -/
def AnalysisJob.lt (a b : AnalysisJob) : Bool :=
  a.priority < b.priority

/-- CPython `heapq._siftdown(heap, startpos, pos)`: bubble the hole at `pos`
up towards `startpos` while `newitem` sorts before the parent, then place
`newitem`.  (`newitem` is `heap[pos]` at the call sites.) -/
def siftdown (startpos : Nat) (newitem : AnalysisJob)
    (heap : List AnalysisJob) (pos : Nat) : List AnalysisJob :=
  if startpos < pos then
    let parentpos := (pos - 1) / 2
    let parent := heap.getD parentpos default
    if AnalysisJob.lt newitem parent then
      siftdown startpos newitem (heap.set pos parent) parentpos
    else heap.set pos newitem
  else heap.set pos newitem
termination_by pos
decreasing_by omega

/-- CPython `heapq._siftup(heap, pos)` main loop: move the smaller child up
into the hole until the hole reaches a leaf, then place `newitem` there and
bubble it back up with `_siftdown`.  When the two children compare equal the
right child is chosen (`not heap[l] < heap[r]`). -/
def siftup (newitem : AnalysisJob) (startpos : Nat)
    (heap : List AnalysisJob) (pos : Nat) : List AnalysisJob :=
  let endpos := heap.length
  let childpos := 2 * pos + 1
  if h : childpos < endpos then
    let rightpos := childpos + 1
    let childpos :=
      if rightpos < endpos ∧
          !AnalysisJob.lt (heap.getD childpos default)
            (heap.getD rightpos default) then rightpos
      else childpos
    siftup newitem startpos (heap.set pos (heap.getD childpos default)) childpos
  else siftdown startpos newitem heap pos
termination_by heap.length - pos
decreasing_by
  simp only [List.length_set]
  split <;> omega

/-- CPython `heapq.heappush`: append, then sift the new item up from the last
position. -/
def heappush (heap : List AnalysisJob) (item : AnalysisJob) :
    List AnalysisJob :=
  siftdown 0 item (heap ++ [item]) heap.length

/-- CPython `heapq.heappop`: `none` on an empty heap (the source raises
`IndexError`; `queue.PriorityQueue` only pops non-empty heaps); otherwise
remove the last element, return the root, and re-heapify by `_siftup` after
moving the last element to the root. -/
def heappop (heap : List AnalysisJob) :
    Option (AnalysisJob × List AnalysisJob) :=
  match heap with
  | [] => none
  | x :: xs =>
      let lastelt := (x :: xs).getLast (by simp)
      let rest := (x :: xs).dropLast
      match rest with
      | [] => some (lastelt, [])
      | y :: ys =>
          some (y, siftup lastelt 0 ((y :: ys).set 0 lastelt) 0)

/-- Length is preserved by `_siftdown`. -/
theorem siftdown_length (startpos : Nat) (newitem : AnalysisJob) :
    ∀ pos heap, (siftdown startpos newitem heap pos).length = heap.length := by
  intro pos
  induction pos using Nat.strong_induction_on with
  | _ pos ih =>
    intro heap
    rw [siftdown]
    dsimp only
    split
    · split
      · rw [ih _ (by omega)]
        simp
      · simp
    · simp

/-- Length is preserved by `_siftup` (fuel-indexed form). -/
theorem siftup_length_fuel (newitem : AnalysisJob) (startpos : Nat) :
    ∀ n pos heap, heap.length - pos ≤ n →
      (siftup newitem startpos heap pos).length = heap.length := by
  intro n
  induction n with
  | zero =>
    intro pos heap hle
    rw [siftup]
    dsimp only
    split
    · omega
    · exact siftdown_length startpos newitem pos heap
  | succ n ih =>
    intro pos heap hle
    rw [siftup]
    dsimp only
    split
    next h =>
      rw [ih]
      · simp
      · simp only [List.length_set]
        split <;> omega
    · exact siftdown_length startpos newitem pos heap

/-- Length is preserved by `_siftup`. -/
theorem siftup_length (newitem : AnalysisJob) (startpos pos : Nat)
    (heap : List AnalysisJob) :
    (siftup newitem startpos heap pos).length = heap.length :=
  siftup_length_fuel newitem startpos (heap.length - pos) pos heap le_rfl

/-- Popping shrinks the heap by one element. -/
theorem heappop_length {heap : List AnalysisJob} {x : AnalysisJob}
    {rest : List AnalysisJob} (h : heappop heap = some (x, rest)) :
    rest.length + 1 = heap.length := by
  match heap with
  | [] => simp [heappop] at h
  | a :: xs =>
    rw [heappop] at h
    revert h
    split
    next hrest =>
      intro h
      rw [Option.some.injEq] at h
      have h2 := congrArg Prod.snd h
      simp only at h2
      have h3 := congrArg List.length hrest
      simp at h3
      simp [← h2, h3]
    next y ys hrest =>
      intro h
      rw [Option.some.injEq] at h
      have h2 := congrArg Prod.snd h
      simp only at h2
      have h3 := congrArg List.length hrest
      rw [← h2, siftup_length, List.length_set]
      simp only [List.length_dropLast, List.length_cons] at h3 ⊢
      omega

/-- Draining the heap by repeated `heappop` (the dequeue order of the
scheduler's priority queue). -/
def popAll (heap : List AnalysisJob) : List AnalysisJob :=
  match h : heappop heap with
  | none => []
  | some (x, rest) =>
      have : rest.length < heap.length := by
        have := heappop_length h
        omega
      x :: popAll rest
termination_by heap.length

/-- Pushing a list of jobs in order onto a heap. -/
def pushAll (heap : List AnalysisJob) (jobs : List AnalysisJob) :
    List AnalysisJob :=
  jobs.foldl heappush heap

/-- The scheduler's bounded priority queue (`queue.PriorityQueue`): `maxsize`
and the underlying heap list. -/
structure JobQueue where
  maxsize : Nat
  queue : List AnalysisJob
deriving DecidableEq

/-- `ModuleRunner.queue_analysis`: build the job and `put_nowait` it; a full
queue drops the job (the `queue.Full` branch logs a warning). -/
def ModuleRunner.queue_analysis (q : JobQueue) (pcap_path interface
    time_window : String) (priority : Int) : JobQueue :=
  let job : AnalysisJob :=
    { pcap_path := pcap_path, interface := interface
      time_window := time_window, priority := priority }
  if q.maxsize > 0 ∧ q.queue.length ≥ q.maxsize then q
  else { q with queue := heappush q.queue job }

/-- The CaptureStats state exhibiting the C1 divergence: five software queue
drops, kernel-drop baseline established and unchanged. -/
def c1Stats : CaptureStats :=
  { queue_dropped := 5, initial_kernel_drops := 0, current_kernel_drops := 0
    prev_time := 0 }

/-- A rotator with an open file for hour 3 of day 5, a registered rotation
callback and three dated partitions on disk. -/
def c3Rotator : HourlyRotator :=
  { base_dir := "/data", interface := "eth0", has_on_rotate := true
    current_writer := some ((PcapWriter.init "/data/5/eth0_5_3.pcap" 1518 100).openFile)
    current_filepath := some "/data/5/eth0_5_3.pcap"
    current_hour := some ⟨5, 3, 0, 0⟩, next_rotate_time := some ⟨5, 4, 0, 0⟩
    dirs := [1, 4, 5] }

/-- The single-frame write: the writer state transformer of `writeFrames`. -/
def writeFrame (w : PcapWriter) (f : Nat × Nat × Bytes) : PcapWriter :=
  w.write_packet f.1 f.2.1 f.2.2 none

/-- Writing a list of `(ts_sec, ts_usec, data)` frames in order with the
default original length. -/
def writeFrames (w : PcapWriter) (frames : List (Nat × Nat × Bytes)) :
    PcapWriter :=
  frames.foldl writeFrame w

/-- The bytes `write_packet` appends for one frame: the 16-byte record header
followed by the truncated payload. -/
def recordBytes (snaplen : Nat) (f : Nat × Nat × Bytes) : Bytes :=
  (PcapWriter.record snaplen f.1 f.2.1 f.2.2 none).1.to_bytes ++
    (PcapWriter.record snaplen f.1 f.2.1 f.2.2 none).2

/-- The records the reader should reconstruct for the written frames, with
reader-local sequence numbers continuing from `stt`. -/
def expectedRecords (snaplen : Nat) : Nat → List (Nat × Nat × Bytes) →
    List PacketInfo
  | _, [] => []
  | stt, f :: fs =>
      { stt := stt + 1, ts_sec := f.1, ts_usec := f.2.1
        caplen := min f.2.2.length snaplen, origlen := f.2.2.length
        data := f.2.2.take snaplen } :: expectedRecords snaplen (stt + 1) fs

/-- The binary-heap invariant that CPython's `heapq` maintains on the
`PriorityQueue` list: every element is no smaller (by priority) than its
parent at index `(i - 1) / 2`. -/
def heapInv (heap : List AnalysisJob) : Prop :=
  ∀ i, 0 < i → i < heap.length →
    (heap.getD ((i - 1) / 2) default).priority ≤
      (heap.getD i default).priority

/-- Invariant of the `_siftdown` bubble-up loop: with `newitem` imagined at
the hole `pos`, every parent-child edge holds except possibly the one from
`pos` to its own parent. -/
def siftdownInvA (heap : List AnalysisJob) (pos : Nat)
    (newitem : AnalysisJob) : Prop :=
  ∀ i, 0 < i → i < heap.length → i ≠ pos →
    ((heap.set pos newitem).getD ((i - 1) / 2) default).priority ≤
      ((heap.set pos newitem).getD i default).priority

/-- Companion invariant of the bubble-up loop: the hole's parent already
dominates the hole's children (needed because the hole's own entry is
stale). -/
def siftdownInvB (heap : List AnalysisJob) (pos : Nat)
    (newitem : AnalysisJob) : Prop :=
  0 < pos → ∀ c, c < heap.length → (c - 1) / 2 = pos →
    ((heap.set pos newitem).getD ((pos - 1) / 2) default).priority ≤
      ((heap.set pos newitem).getD c default).priority

/-- Invariant of the `_siftup` sift-to-leaf loop: every parent-child edge not
touching the hole `pos` holds. -/
def siftupInvC (heap : List AnalysisJob) (pos : Nat) : Prop :=
  ∀ i, 0 < i → i < heap.length → i ≠ pos → (i - 1) / 2 ≠ pos →
    (heap.getD ((i - 1) / 2) default).priority ≤
      (heap.getD i default).priority

/-- Companion invariant of the sift-to-leaf loop: the hole's parent dominates
the hole's children. -/
def siftupInvD (heap : List AnalysisJob) (pos : Nat) : Prop :=
  0 < pos → ∀ c, c < heap.length → (c - 1) / 2 = pos →
    (heap.getD ((pos - 1) / 2) default).priority ≤
      (heap.getD c default).priority

/-- Four equal-priority jobs in arrival order a, b, c, d. -/
def c2Jobs : List AnalysisJob :=
  [{ pcap_path := "a", interface := "eth0", time_window := "w", priority := 0 },
   { pcap_path := "b", interface := "eth0", time_window := "w", priority := 0 },
   { pcap_path := "c", interface := "eth0", time_window := "w", priority := 0 },
   { pcap_path := "d", interface := "eth0", time_window := "w", priority := 0 }]

/-! ## Theorems -/

/-- C10: calling `PcapWriter.write_packet` after `close` (or before any file
is open) is a silent no-op: the writer state — in particular
`packet_count`, `byte_count` and the in-memory buffer — is unchanged. -/
theorem claim_C10_write_noop_when_closed_or_unopened (w : PcapWriter)
    (ts_sec ts_usec : Nat) (data : Bytes) (origlen : Option Nat)
    (h : w.closed = true ∨ w.fileOpen = false) :
    w.write_packet ts_sec ts_usec data origlen = w := by
  unfold PcapWriter.write_packet
  rcases h with h | h <;> simp [h]

/-- C10 witness: a freshly constructed writer has no file open, and a write
leaves it unchanged. -/
theorem claim_C10_witness :
    (PcapWriter.init "f").write_packet 1 2 [3, 4] none = PcapWriter.init "f" :=
  claim_C10_write_noop_when_closed_or_unopened (PcapWriter.init "f") 1 2 [3, 4]
    none (Or.inr rfl)

/-- C4 counterexample: `write_packet` never checks an explicitly supplied
original length against the captured length, so the record buffered for a
2-byte payload with `origlen=1` has `origlen < caplen`, refuting
`origlen ≥ caplen` for records written with an explicit original length. -/
theorem claim_C4_counterexample :
    (PcapWriter.record 1518 0 0 [7, 7] (some 1)).1.origlen <
      (PcapWriter.record 1518 0 0 [7, 7] (some 1)).1.caplen ∧
    ((PcapWriter.init "f").openFile.write_packet 0 0 [7, 7] (some 1)).buffer =
      (PcapWriter.record 1518 0 0 [7, 7] (some 1)).1.to_bytes ++ [7, 7] := by
  constructor
  · decide
  · rfl

/-- C4 amended: every record header the writer constructs has
`caplen ≤ snaplen`; `origlen ≥ caplen` holds whenever the supplied original
length is omitted (defaulting to `len(data)`) or is at least the captured
length — an explicitly supplied smaller value is stored unchecked. -/
theorem claim_C4_record_header_bounds (snaplen ts_sec ts_usec : Nat)
    (data : Bytes) (origlen : Option Nat)
    (h : ∀ og, origlen = some og → min data.length snaplen ≤ og) :
    (PcapWriter.record snaplen ts_sec ts_usec data origlen).1.caplen ≤
        snaplen ∧
    (PcapWriter.record snaplen ts_sec ts_usec data origlen).1.caplen ≤
        (PcapWriter.record snaplen ts_sec ts_usec data origlen).1.origlen := by
  unfold PcapWriter.record
  refine ⟨min_le_right _ _, ?_⟩
  match origlen with
  | none => exact min_le_left _ _
  | some og => exact h og rfl

/-- C4 witness: a 100-byte payload at snaplen 64 with the default original
length. -/
theorem claim_C4_witness :
    (PcapWriter.record 64 0 0 (List.replicate 100 7) none).1.caplen ≤ 64 ∧
    (PcapWriter.record 64 0 0 (List.replicate 100 7) none).1.caplen ≤
      (PcapWriter.record 64 0 0 (List.replicate 100 7) none).1.origlen :=
  claim_C4_record_header_bounds 64 0 0 (List.replicate 100 7) none
    (fun og hog => by cases hog)

/-- C6: a 1518-byte frame written at snaplen 64 yields a record with
captured length 64, original length 1518 and the first 64 bytes of the frame
as payload; the writer buffers exactly this record. -/
theorem claim_C6_truncation (ts_sec ts_usec : Nat) (data : Bytes)
    (hlen : data.length = 1518) :
    (PcapWriter.record 64 ts_sec ts_usec data none).1.caplen = 64 ∧
    (PcapWriter.record 64 ts_sec ts_usec data none).1.origlen = 1518 ∧
    (PcapWriter.record 64 ts_sec ts_usec data none).2 = data.take 64 ∧
    ((PcapWriter.init "f" 64).openFile.write_packet ts_sec ts_usec
        data none).buffer =
      (PcapWriter.record 64 ts_sec ts_usec data none).1.to_bytes ++
        data.take 64 := by
  have hmin : min data.length 64 = 64 := by omega
  refine ⟨?_, ?_, ?_, ?_⟩
  · simp [PcapWriter.record, hmin]
  · simp [PcapWriter.record, hlen]
  · simp [PcapWriter.record, hmin]
  · simp [PcapWriter.write_packet, PcapWriter.init, PcapWriter.openFile,
      PcapWriter.record, hmin]

/-- C6 witness: the concrete 1518-byte frame of sevens. -/
theorem claim_C6_witness :
    (PcapWriter.record 64 0 1 (List.replicate 1518 7) none).1.caplen = 64 ∧
    (PcapWriter.record 64 0 1 (List.replicate 1518 7) none).1.origlen =
      1518 ∧
    (PcapWriter.record 64 0 1 (List.replicate 1518 7) none).2 =
      (List.replicate 1518 7).take 64 ∧
    ((PcapWriter.init "f" 64).openFile.write_packet 0 1
        (List.replicate 1518 7) none).buffer =
      (PcapWriter.record 64 0 1 (List.replicate 1518 7) none).1.to_bytes ++
        (List.replicate 1518 7).take 64 :=
  claim_C6_truncation 0 1 (List.replicate 1518 7) (List.length_replicate 1518 7)

/-- C1: after a rate/drop-stats recomputation the code sets
`dropped = max(0, current_kernel_drops - initial_kernel_drops)` with no
queue-drop term, so with five queue drops and no kernel drops the dropped
counter is 0 while the documented invariant
`max(0, cur - base) + queue_drop` gives 5 — the code contradicts its own
comment ("kernel drops since start + queue drops"). -/
theorem claim_C1_dropped_omits_queue_drops :
    (c1Stats.update_rates 1).dropped = 0 ∧
    (c1Stats.update_rates 1).queue_dropped = 5 ∧
    max 0 (c1Stats.current_kernel_drops - c1Stats.initial_kernel_drops) +
      c1Stats.queue_dropped = 5 := by
  refine ⟨?_, ?_, by norm_num [c1Stats]⟩ <;>
    norm_num [CaptureStats.update_rates, c1Stats]

/-- C9: a frame of 14 to 17 bytes whose ethertype field holds the VLAN tag
value decodes with no Ethernet header at all, although a complete 14-byte
Ethernet header is present. -/
theorem claim_C9_vlan_short_frame_drops_ethernet (data : Bytes)
    (h14 : 14 ≤ data.length) (h18 : data.length < 18)
    (hvlan : unpackU16be (data.drop 12) = ETHERTYPE_VLAN) :
    (decode_packet data).ethernet = none := by
  have heth : decode_ethernet data = (none, 0) := by
    unfold decode_ethernet
    rw [if_neg (by omega), hvlan, if_pos rfl, if_pos h18]
  unfold decode_packet
  rw [heth]

/-- C9 witness: a minimal 14-byte VLAN-tagged frame. -/
theorem claim_C9_witness :
    (decode_packet [0, 0, 0, 0, 0, 0, 0, 0, 0, 0, 0, 0, 0x81, 0x00]).ethernet
      = none :=
  claim_C9_vlan_short_frame_drops_ethernet
    [0, 0, 0, 0, 0, 0, 0, 0, 0, 0, 0, 0, 0x81, 0x00]
    (by decide) (by decide) (by decide)

/-- C7: a VLAN-tagged frame of at least 18 bytes decodes to the ethertype
read after the tag with payload offset 18; an untagged frame of at least 14
bytes decodes to the ethertype at offset 12 with payload offset 14. -/
theorem claim_C7_vlan_ethertype_and_offset :
    (∀ data : Bytes, 18 ≤ data.length →
      unpackU16be (data.drop 12) = ETHERTYPE_VLAN →
      (decode_ethernet data).2 = 18 ∧
      (decode_ethernet data).1.map EthernetHeader.ethertype =
        some (unpackU16be (data.drop 16))) ∧
    (∀ data : Bytes, 14 ≤ data.length →
      unpackU16be (data.drop 12) ≠ ETHERTYPE_VLAN →
      (decode_ethernet data).2 = 14 ∧
      (decode_ethernet data).1.map EthernetHeader.ethertype =
        some (unpackU16be (data.drop 12))) := by
  constructor
  · intro data h18 hvlan
    unfold decode_ethernet
    rw [if_neg (by omega), hvlan, if_pos rfl, if_neg (by omega)]
    simp
  · intro data h14 hvlan
    unfold decode_ethernet
    rw [if_neg (by omega), if_neg hvlan]
    simp

/-- C3 counterexample: `force_rotate` reaches `_do_rotate`, which always
opens a replacement file — after a forced rotation with a file open the
rotator again holds an open writer and its file count has grown, refuting
"without opening a replacement file". -/
theorem claim_C3_counterexample :
    (c3Rotator.force_rotate ⟨5, 4, 0, 30⟩).current_writer.isSome = true ∧
    (c3Rotator.force_rotate ⟨5, 4, 0, 30⟩).file_count =
      c3Rotator.file_count + 1 := by
  constructor <;> rfl

/-- C3 amended: a forced rotation with a file open closes it, invokes the
rotation callback once with the closed path and hour window, runs retention
cleanup (when retention is positive), and opens a replacement file; closing
the rotator issues exactly one final rotation callback for the last open
file, and a second close is a no-op. -/
theorem claim_C3_force_rotate_and_close (r : HourlyRotator) (now : DT)
    (p : String) (hcur : DT)
    (hw : r.current_writer.isSome = true)
    (hp : r.current_filepath = some p)
    (hh : r.current_hour = some hcur)
    (hcb : r.has_on_rotate = true)
    (hclosed : r.closed = false) :
    (r.force_rotate now).current_writer.isSome = true ∧
    (r.force_rotate now).file_count = r.file_count + 1 ∧
    (r.force_rotate now).rotate_events =
      r.rotate_events ++
        [(p, r.interface, HourlyRotator.get_time_window hcur)] ∧
    (r.retention_days > 0 →
      (r.force_rotate now).dirs =
        r.dirs.filter fun d => !decide (d < now.day - r.retention_days)) ∧
    r.close.current_writer = none ∧
    r.close.rotate_events =
      r.rotate_events ++
        [(p, r.interface, HourlyRotator.get_time_window hcur)] ∧
    r.close.close = r.close := by
  obtain ⟨w, hwsome⟩ : ∃ w, r.current_writer = some w := by
    cases hcase : r.current_writer with
    | none => rw [hcase] at hw; cases hw
    | some w => exact ⟨w, rfl⟩
  have hclose : r.close =
      { r with closed := true, current_writer := none, current_filepath := none
               rotate_events := r.rotate_events ++
                 [(p, r.interface, HourlyRotator.get_time_window hcur)] } := by
    unfold HourlyRotator.close HourlyRotator.close_current_file
    rw [if_neg (by simp [hclosed])]
    simp only [hwsome, hp, hh]
    simp [hcb]
  refine ⟨?_, ?_, ?_, ?_, ?_, ?_, ?_⟩
  · unfold HourlyRotator.force_rotate HourlyRotator.do_rotate
      HourlyRotator.close_current_file HourlyRotator.open_new_file
      HourlyRotator.cleanup_old_files
    simp only [hwsome, hp, hh]
    simp [hcb]
    split
    · split <;> rfl
    · rfl
  · unfold HourlyRotator.force_rotate HourlyRotator.do_rotate
      HourlyRotator.close_current_file HourlyRotator.open_new_file
      HourlyRotator.cleanup_old_files
    simp only [hwsome, hp, hh]
    simp [hcb]
    split
    · split <;> rfl
    · rfl
  · unfold HourlyRotator.force_rotate HourlyRotator.do_rotate
      HourlyRotator.close_current_file HourlyRotator.open_new_file
      HourlyRotator.cleanup_old_files
    simp only [hwsome, hp, hh]
    simp [hcb]
    split
    · split <;> rfl
    · rfl
  · intro hret
    unfold HourlyRotator.force_rotate HourlyRotator.do_rotate
      HourlyRotator.close_current_file HourlyRotator.open_new_file
      HourlyRotator.cleanup_old_files
    simp only [hwsome, hp, hh]
    simp [hcb]
    split
    · split
      · exfalso; omega
      · rfl
    · exfalso; omega
  · rw [hclose]
  · rw [hclose]
  · rw [hclose]
    unfold HourlyRotator.close
    rw [if_pos rfl]

/-- C3 witness: the concrete rotator above, forced at 04:00:30 of day 5 and
then closed. -/
theorem claim_C3_witness :
    (c3Rotator.force_rotate ⟨5, 4, 0, 30⟩).current_writer.isSome = true ∧
    (c3Rotator.force_rotate ⟨5, 4, 0, 30⟩).file_count =
      c3Rotator.file_count + 1 ∧
    (c3Rotator.force_rotate ⟨5, 4, 0, 30⟩).rotate_events =
      c3Rotator.rotate_events ++
        [("/data/5/eth0_5_3.pcap", c3Rotator.interface,
          HourlyRotator.get_time_window ⟨5, 3, 0, 0⟩)] ∧
    (c3Rotator.retention_days > 0 →
      (c3Rotator.force_rotate ⟨5, 4, 0, 30⟩).dirs =
        c3Rotator.dirs.filter fun d =>
          !decide (d < (⟨5, 4, 0, 30⟩ : DT).day - c3Rotator.retention_days)) ∧
    c3Rotator.close.current_writer = none ∧
    c3Rotator.close.rotate_events =
      c3Rotator.rotate_events ++
        [("/data/5/eth0_5_3.pcap", c3Rotator.interface,
          HourlyRotator.get_time_window ⟨5, 3, 0, 0⟩)] ∧
    c3Rotator.close.close = c3Rotator.close :=
  claim_C3_force_rotate_and_close c3Rotator ⟨5, 4, 0, 30⟩
    "/data/5/eth0_5_3.pcap" ⟨5, 3, 0, 0⟩ rfl rfl rfl rfl rfl

/-- A frame shorter than the 14-byte Ethernet header decodes to nothing. -/
theorem decode_ethernet_short {data : Bytes} (h : data.length < 14) :
    decode_ethernet data = (none, 0) := by
  unfold decode_ethernet
  rw [if_pos h]

/-- C8: `decode_packet` is a total function producing a `DecodedPacket` for
every byte sequence (the embedding of "never raises": every code path of the
source either returns early or builds a result, as the case analysis below
retraces); a missing or malformed layer leaves its header field absent and
stops the descent: a short frame yields the bare result, an absent Ethernet
header leaves every other layer absent, and an absent network layer leaves
every transport header absent. -/
theorem claim_C8_decode_total_and_layered (data : Bytes) :
    (decode_packet data).raw_data = data ∧
    (data.length < 14 → decode_packet data = { raw_data := data }) ∧
    ((decode_packet data).ethernet = none →
      decode_packet data = { raw_data := data }) ∧
    ((decode_packet data).ipv4 = none → (decode_packet data).ipv6 = none →
      (decode_packet data).tcp = none ∧ (decode_packet data).udp = none ∧
        (decode_packet data).icmp = none) := by
  rcases heth : decode_ethernet data with ⟨_ | eth, elen⟩
  · simp [decode_packet, heth]
  · have h14 : ¬data.length < 14 := fun hl => by
      rw [decode_ethernet_short hl] at heth
      cases heth
    by_cases hIP : eth.ethertype = 0x0800
    · rcases hip : decode_ipv4 (data.drop elen) with ⟨_ | ip, iplen⟩
      · simp [decode_packet, ETHERTYPE_IP, ETHERTYPE_IPV6, ETHERTYPE_ARP, PROTO_TCP, PROTO_UDP, PROTO_ICMP, heth, hIP, hip, h14]
      · by_cases hTCP : ip.protocol = 6
        · rcases htcp : decode_tcp (data.drop (elen + iplen)) with ⟨_ | t, tlen⟩
          · simp [decode_packet, ETHERTYPE_IP, ETHERTYPE_IPV6, ETHERTYPE_ARP, PROTO_TCP, PROTO_UDP, PROTO_ICMP, heth, hIP, hip, hTCP, htcp, h14]
          · simp [decode_packet, ETHERTYPE_IP, ETHERTYPE_IPV6, ETHERTYPE_ARP, PROTO_TCP, PROTO_UDP, PROTO_ICMP, heth, hIP, hip, hTCP, htcp, h14]
        · by_cases hUDP : ip.protocol = 17
          · rcases hudp : decode_udp (data.drop (elen + iplen)) with
              ⟨_ | u, ulen⟩
            · simp [decode_packet, ETHERTYPE_IP, ETHERTYPE_IPV6, ETHERTYPE_ARP, PROTO_TCP, PROTO_UDP, PROTO_ICMP, heth, hIP, hip, hTCP, hUDP, hudp, h14]
            · simp [decode_packet, ETHERTYPE_IP, ETHERTYPE_IPV6, ETHERTYPE_ARP, PROTO_TCP, PROTO_UDP, PROTO_ICMP, heth, hIP, hip, hTCP, hUDP, hudp, h14]
          · by_cases hICMP : ip.protocol = 1
            · rcases hicmp : decode_icmp (data.drop (elen + iplen)) with
                ⟨_ | c, clen⟩
              · simp [decode_packet, ETHERTYPE_IP, ETHERTYPE_IPV6, ETHERTYPE_ARP, PROTO_TCP, PROTO_UDP, PROTO_ICMP, heth, hIP, hip, hTCP, hUDP, hICMP, hicmp,
                  h14]
              · simp [decode_packet, ETHERTYPE_IP, ETHERTYPE_IPV6, ETHERTYPE_ARP, PROTO_TCP, PROTO_UDP, PROTO_ICMP, heth, hIP, hip, hTCP, hUDP, hICMP, hicmp,
                  h14]
            · simp [decode_packet, ETHERTYPE_IP, ETHERTYPE_IPV6, ETHERTYPE_ARP, PROTO_TCP, PROTO_UDP, PROTO_ICMP, heth, hIP, hip, hTCP, hUDP, hICMP, h14]
    · by_cases hV6 : eth.ethertype = 0x86DD
      · rcases hip6 : decode_ipv6 (data.drop elen) with ⟨_ | ip6, iplen⟩
        · simp [decode_packet, ETHERTYPE_IP, ETHERTYPE_IPV6, ETHERTYPE_ARP, PROTO_TCP, PROTO_UDP, PROTO_ICMP, heth, hIP, hV6, hip6, h14]
        · by_cases hTCP : ip6.next_header = 6
          · rcases htcp : decode_tcp (data.drop (elen + iplen)) with
              ⟨_ | t, tlen⟩
            · simp [decode_packet, ETHERTYPE_IP, ETHERTYPE_IPV6, ETHERTYPE_ARP, PROTO_TCP, PROTO_UDP, PROTO_ICMP, heth, hIP, hV6, hip6, hTCP, htcp, h14]
            · simp [decode_packet, ETHERTYPE_IP, ETHERTYPE_IPV6, ETHERTYPE_ARP, PROTO_TCP, PROTO_UDP, PROTO_ICMP, heth, hIP, hV6, hip6, hTCP, htcp, h14]
          · by_cases hUDP : ip6.next_header = 17
            · rcases hudp : decode_udp (data.drop (elen + iplen)) with
                ⟨_ | u, ulen⟩
              · simp [decode_packet, ETHERTYPE_IP, ETHERTYPE_IPV6, ETHERTYPE_ARP, PROTO_TCP, PROTO_UDP, PROTO_ICMP, heth, hIP, hV6, hip6, hTCP, hUDP, hudp,
                  h14]
              · simp [decode_packet, ETHERTYPE_IP, ETHERTYPE_IPV6, ETHERTYPE_ARP, PROTO_TCP, PROTO_UDP, PROTO_ICMP, heth, hIP, hV6, hip6, hTCP, hUDP, hudp,
                  h14]
            · simp [decode_packet, ETHERTYPE_IP, ETHERTYPE_IPV6, ETHERTYPE_ARP, PROTO_TCP, PROTO_UDP, PROTO_ICMP, heth, hIP, hV6, hip6, hTCP, hUDP, h14]
      · by_cases hARP : eth.ethertype = 0x0806
        · rcases harp : decode_arp (data.drop elen) with ⟨_ | a, alen⟩
          · simp [decode_packet, ETHERTYPE_IP, ETHERTYPE_IPV6, ETHERTYPE_ARP, PROTO_TCP, PROTO_UDP, PROTO_ICMP, heth, hIP, hV6, hARP, harp, h14]
          · simp [decode_packet, ETHERTYPE_IP, ETHERTYPE_IPV6, ETHERTYPE_ARP, PROTO_TCP, PROTO_UDP, PROTO_ICMP, heth, hIP, hV6, hARP, harp, h14]
        · simp [decode_packet, ETHERTYPE_IP, ETHERTYPE_IPV6, ETHERTYPE_ARP, PROTO_TCP, PROTO_UDP, PROTO_ICMP, heth, hIP, hV6, hARP, h14]

/-- C8 witness: the theorem applied at a concrete frame. -/
theorem claim_C8_witness :
    (decode_packet [1, 2, 3]).raw_data = [1, 2, 3] ∧
    ((3 : Nat) < 14 → decode_packet [1, 2, 3] = { raw_data := [1, 2, 3] }) ∧
    ((decode_packet [1, 2, 3]).ethernet = none →
      decode_packet [1, 2, 3] = { raw_data := [1, 2, 3] }) ∧
    ((decode_packet [1, 2, 3]).ipv4 = none →
      (decode_packet [1, 2, 3]).ipv6 = none →
      (decode_packet [1, 2, 3]).tcp = none ∧
        (decode_packet [1, 2, 3]).udp = none ∧
        (decode_packet [1, 2, 3]).icmp = none) :=
  claim_C8_decode_total_and_layered [1, 2, 3]

/-! ### Round trip of the Capture File Codec (C5) -/

theorem packU32le_length (n : Nat) : (packU32le n).length = 4 := rfl

theorem packU16le_length (n : Nat) : (packU16le n).length = 2 := rfl

theorem to_bytes_length (h : PcapPacketHeader) : h.to_bytes.length = 16 := by
  simp [PcapPacketHeader.to_bytes, packU32le]

theorem global_to_bytes_length (h : PcapGlobalHeader) :
    h.to_bytes.length = 24 := by
  simp [PcapGlobalHeader.to_bytes, packU32le, packU16le]

/-- Unpacking an in-range packed 32-bit value recovers it. -/
theorem unpackU32le_pack (n : Nat) (rest : Bytes) (h : n < 4294967296) :
    unpackU32le (packU32le n ++ rest) = n := by
  simp [unpackU32le, packU32le]
  omega

/-- A record header followed by anything parses back (little-endian) to the
header, when its fields are 32-bit values. -/
theorem from_bytes_to_bytes_le (hdr : PcapPacketHeader) (rest : Bytes)
    (h1 : hdr.ts_sec < 4294967296) (h2 : hdr.ts_usec < 4294967296)
    (h3 : hdr.caplen < 4294967296) (h4 : hdr.origlen < 4294967296) :
    PcapPacketHeader.from_bytes (hdr.to_bytes ++ rest) false = hdr := by
  obtain ⟨a, b, c, d⟩ := hdr
  simp only [PcapPacketHeader.from_bytes, PcapPacketHeader.to_bytes, packU32le,
    unpackU32le, Bool.false_eq_true, if_false, List.cons_append,
    List.nil_append, List.drop_succ_cons, List.drop_zero, List.getD_cons_zero,
    List.getD_cons_succ, PcapPacketHeader.mk.injEq]
  simp only [PcapPacketHeader.ts_sec, PcapPacketHeader.ts_usec,
    PcapPacketHeader.caplen, PcapPacketHeader.origlen] at h1 h2 h3 h4
  refine ⟨by omega, by omega, by omega, by omega⟩

/-- A record header alone parses back (little-endian) to itself. -/
theorem from_bytes_to_bytes_le_nil (hdr : PcapPacketHeader)
    (h1 : hdr.ts_sec < 4294967296) (h2 : hdr.ts_usec < 4294967296)
    (h3 : hdr.caplen < 4294967296) (h4 : hdr.origlen < 4294967296) :
    PcapPacketHeader.from_bytes hdr.to_bytes false = hdr := by
  have hp := from_bytes_to_bytes_le hdr [] h1 h2 h3 h4
  simpa using hp

/-- One `write_packet` call on a live writer preserves liveness and appends
exactly the frame's record bytes to the file-plus-buffer contents. -/
theorem write_packet_step (w : PcapWriter) (f : Nat × Nat × Bytes)
    (hc : w.closed = false) (ho : w.fileOpen = true) :
    (writeFrame w f).closed = false ∧
    (writeFrame w f).fileOpen = true ∧
    (writeFrame w f).snaplen = w.snaplen ∧
    (writeFrame w f).fileData ++ (writeFrame w f).buffer =
      w.fileData ++ w.buffer ++ recordBytes w.snaplen f := by
  unfold writeFrame PcapWriter.write_packet
  rw [if_neg (by simp [hc, ho])]
  dsimp only
  split
  · unfold PcapWriter.flush_buffer
    rw [if_pos ⟨by simp [PcapPacketHeader.to_bytes, packU32le], by simp [ho]⟩]
    simp [recordBytes, hc, ho]
  · simp [recordBytes, hc, ho]

/-- Closing a live writer flushes the pending buffer: the final file contents
are the already-written bytes plus the buffer. -/
theorem close_fileData (w : PcapWriter) (hc : w.closed = false)
    (ho : w.fileOpen = true) :
    w.close.fileData = w.fileData ++ w.buffer := by
  unfold PcapWriter.close PcapWriter.flush_buffer
  rw [if_neg (by simp [hc])]
  by_cases hb : w.buffer = []
  · rw [if_neg (by simp [hb])]
    simp [hb]
  · rw [if_pos ⟨by simp [hb], by simp [ho]⟩]

/-- Writing frames on a live writer and closing leaves on disk the original
contents, the prior buffer, and every frame's record bytes in order. -/
theorem writeFrames_close_fileData (frames : List (Nat × Nat × Bytes)) :
    ∀ w : PcapWriter, w.closed = false → w.fileOpen = true →
      (writeFrames w frames).close.fileData =
        w.fileData ++ w.buffer ++
          (frames.map (recordBytes w.snaplen)).flatten := by
  induction frames with
  | nil =>
    intro w hc ho
    simp [writeFrames, close_fileData w hc ho]
  | cons f fs ih =>
    intro w hc ho
    obtain ⟨hc', ho', hs', hd'⟩ := write_packet_step w f hc ho
    have hfold : writeFrames w (f :: fs) = writeFrames (writeFrame w f) fs :=
      rfl
    rw [hfold, ih (writeFrame w f) hc' ho', hs', List.map_cons,
      List.flatten_cons, ← List.append_assoc, hd']

/-- `read_packet` unfolding when the next record parses. -/
theorem readPacketsFrom_some {be : Bool} {stt : Nat} {bytes : Bytes}
    {pkt : PacketInfo} {rest : Bytes}
    (h : PcapReader.read_packet be stt bytes = some (pkt, rest)) :
    PcapReader.readPacketsFrom be stt bytes =
      pkt :: PcapReader.readPacketsFrom be (stt + 1) rest := by
  rw [PcapReader.readPacketsFrom]
  split
  next h' => rw [h] at h'; cases h'
  next pkt' rest' h' =>
    rw [h] at h'
    rw [Option.some.injEq] at h'
    have h1 := congrArg Prod.fst h'
    have h2 := congrArg Prod.snd h'
    simp only at h1 h2
    rw [h1, h2]

/-- `read_packet` unfolding at end of input. -/
theorem readPacketsFrom_none {be : Bool} {stt : Nat} {bytes : Bytes}
    (h : PcapReader.read_packet be stt bytes = none) :
    PcapReader.readPacketsFrom be stt bytes = [] := by
  rw [PcapReader.readPacketsFrom]
  split
  · rfl
  next pkt' rest' h' => rw [h] at h'; cases h'

/-- Truncating to the captured length is truncating to the snaplen. -/
theorem take_min_length (l : Bytes) (n : Nat) :
    l.take (min l.length n) = l.take n := by
  rcases le_total l.length n with h | h
  · rw [min_eq_left h, List.take_length, List.take_of_length_le h]
  · rw [min_eq_right h]

/-- Reading one record produced by the writer recovers the frame's timestamp,
captured length `min(len, snaplen)`, original length `len`, and the payload
truncated to snaplen, leaving the remaining bytes. -/
theorem read_packet_recordBytes (snaplen : Nat) (f : Nat × Nat × Bytes)
    (rest : Bytes) (stt : Nat) (h1 : f.1 < 4294967296)
    (h2 : f.2.1 < 4294967296) (h3 : f.2.2.length < 4294967296)
    (hs : snaplen < 4294967296) :
    PcapReader.read_packet false stt (recordBytes snaplen f ++ rest) =
      some ({ stt := stt + 1, ts_sec := f.1, ts_usec := f.2.1
              caplen := min f.2.2.length snaplen, origlen := f.2.2.length
              data := f.2.2.take snaplen }, rest) := by
  obtain ⟨a, b, d⟩ := f
  simp only at h1 h2 h3
  have hcap : (d.take (min d.length snaplen)).length = min d.length snaplen := by
    rw [List.length_take]
    omega
  have hrec : recordBytes snaplen (a, b, d) =
      (PcapPacketHeader.mk a b (min d.length snaplen) d.length).to_bytes ++
        d.take (min d.length snaplen) := rfl
  unfold PcapReader.read_packet
  rw [if_neg (by
    simp only [hrec, List.append_assoc, List.length_append, to_bytes_length]
    omega)]
  dsimp only
  rw [show recordBytes snaplen (a, b, d) ++ rest =
      (PcapPacketHeader.mk a b (min d.length snaplen) d.length).to_bytes ++
        (d.take (min d.length snaplen) ++ rest) by
    rw [hrec, List.append_assoc]]
  rw [List.take_left' (to_bytes_length _), List.drop_left' (to_bytes_length _)]
  rw [from_bytes_to_bytes_le_nil _ h1 h2 (by dsimp only; omega)
    (by dsimp only; omega)]
  dsimp only
  rw [List.take_left' hcap, List.drop_left' hcap]
  rw [if_neg (by rw [hcap]; omega)]
  rw [take_min_length]

/-- Reading back a concatenation of writer records yields exactly the
expected reconstruction, in order. -/
theorem readPacketsFrom_records (snaplen : Nat) (hs : snaplen < 4294967296) :
    ∀ (frames : List (Nat × Nat × Bytes)) (stt : Nat),
      (∀ f ∈ frames, f.1 < 4294967296 ∧ f.2.1 < 4294967296 ∧
        f.2.2.length < 4294967296) →
      PcapReader.readPacketsFrom false stt
          ((frames.map (recordBytes snaplen)).flatten) =
        expectedRecords snaplen stt frames := by
  intro frames
  induction frames with
  | nil =>
    intro stt _
    rw [List.map_nil, List.flatten_nil, expectedRecords]
    exact readPacketsFrom_none (by rw [PcapReader.read_packet]; simp)
  | cons f fs ih =>
    intro stt h
    obtain ⟨h1, h2, h3⟩ := h f (List.mem_cons_self f fs)
    rw [List.map_cons, List.flatten_cons,
      readPacketsFrom_some (read_packet_recordBytes snaplen f _ stt h1 h2 h3 hs),
      ih (stt + 1) (fun g hg => h g (List.mem_cons_of_mem f hg)),
      expectedRecords]

/-- Unpacking an in-range packed 16-bit value recovers it. -/
theorem unpackU16le_pack (n : Nat) (rest : Bytes) (h : n < 65536) :
    unpackU16le (packU16le n ++ rest) = n := by
  simp [unpackU16le, packU16le]
  omega

/-- The 24-byte global header the writer emits parses back to itself. -/
theorem from_bytes_global (snaplen linktype : Nat)
    (hs : snaplen < 4294967296) (hl : linktype < 4294967296) :
    PcapGlobalHeader.from_bytes (PcapGlobalHeader.to_bytes
      { snaplen := snaplen, linktype := linktype }) =
      some { snaplen := snaplen, linktype := linktype } := by
  set B := PcapGlobalHeader.to_bytes
    { snaplen := snaplen, linktype := linktype } with hB
  have hdecomp : B = packU32le 0xa1b2c3d4 ++ (packU16le 2 ++ (packU16le 4 ++
      (packU32le 0 ++ (packU32le 0 ++ (packU32le snaplen ++
        packU32le linktype))))) := by
    rw [hB]
    simp [PcapGlobalHeader.to_bytes, PCAP_MAGIC, PCAP_VERSION_MAJOR,
      PCAP_VERSION_MINOR, List.append_assoc]
  have hlen : B.length = 24 := by
    rw [hdecomp]
    simp [packU32le, packU16le]
  have h4 : B.drop 4 = packU16le 2 ++ (packU16le 4 ++ (packU32le 0 ++
      (packU32le 0 ++ (packU32le snaplen ++ packU32le linktype)))) := by
    rw [hdecomp, List.drop_left' (packU32le_length _)]
  have h6 : B.drop 6 = packU16le 4 ++ (packU32le 0 ++
      (packU32le 0 ++ (packU32le snaplen ++ packU32le linktype))) := by
    have hd : B.drop 6 = (B.drop 4).drop 2 := by rw [List.drop_drop]
    rw [hd, h4, List.drop_left' (packU16le_length _)]
  have h8 : B.drop 8 = packU32le 0 ++
      (packU32le 0 ++ (packU32le snaplen ++ packU32le linktype)) := by
    have hd : B.drop 8 = (B.drop 6).drop 2 := by rw [List.drop_drop]
    rw [hd, h6, List.drop_left' (packU16le_length _)]
  have h12 : B.drop 12 = packU32le 0 ++
      (packU32le snaplen ++ packU32le linktype) := by
    have hd : B.drop 12 = (B.drop 8).drop 4 := by rw [List.drop_drop]
    rw [hd, h8, List.drop_left' (packU32le_length _)]
  have h16 : B.drop 16 = packU32le snaplen ++ packU32le linktype := by
    have hd : B.drop 16 = (B.drop 12).drop 4 := by rw [List.drop_drop]
    rw [hd, h12, List.drop_left' (packU32le_length _)]
  have h20 : B.drop 20 = packU32le linktype := by
    have hd : B.drop 20 = (B.drop 16).drop 4 := by rw [List.drop_drop]
    rw [hd, h16, List.drop_left' (packU32le_length _)]
  have hmagic : unpackU32le B = 0xa1b2c3d4 := by
    rw [hdecomp]
    exact unpackU32le_pack _ _ (by norm_num)
  unfold PcapGlobalHeader.from_bytes
  rw [if_neg (by omega)]
  dsimp only
  rw [hmagic, if_pos rfl, h4, h6, h8, h12, h16, h20]
  rw [unpackU16le_pack _ _ (by norm_num), unpackU16le_pack _ _ (by norm_num)]
  rw [unpackU32le_pack 0 _ (by norm_num), unpackU32le_pack 0 _ (by norm_num)]
  have hsnap : unpackU32le (packU32le snaplen ++ packU32le linktype) =
      snaplen := unpackU32le_pack _ _ hs
  have hlink : unpackU32le (packU32le linktype) = linktype := by
    have hp := unpackU32le_pack linktype [] hl
    simpa using hp
  rw [hsnap, hlink]
  rfl

/-- The global header the writer emits parses back (selecting little-endian)
in front of any body. -/
theorem openHeader_writer (snaplen linktype : Nat) (body : Bytes)
    (hs : snaplen < 4294967296) (hl : linktype < 4294967296) :
    PcapReader.openHeader
        ((PcapGlobalHeader.to_bytes
          { snaplen := snaplen, linktype := linktype }) ++ body) =
      some ({ snaplen := snaplen, linktype := linktype }, false) := by
  unfold PcapReader.openHeader
  rw [if_neg (by
    simp only [List.length_append, global_to_bytes_length]
    omega)]
  rw [List.take_left' (global_to_bytes_length _)]
  rw [from_bytes_global snaplen linktype hs hl]
  have hmagic : unpackU32le (PcapGlobalHeader.to_bytes
      { snaplen := snaplen, linktype := linktype } ++ body) = 0xa1b2c3d4 := by
    simp only [PcapGlobalHeader.to_bytes, List.append_assoc]
    exact unpackU32le_pack _ _ (by norm_num [PCAP_MAGIC])
  dsimp only
  rw [hmagic]
  rfl

/-- `readFile` unfolding when the global header parses. -/
theorem readFile_some {bytes : Bytes} {h : PcapGlobalHeader} {be : Bool}
    (hopen : PcapReader.openHeader bytes = some (h, be)) :
    PcapReader.readFile bytes =
      some (h, be, PcapReader.readPacketsFrom be 0 (bytes.drop 24)) := by
  unfold PcapReader.readFile
  rw [hopen]

/-- C5 amended: writing any frame sequence with the Capture File Codec
writer and reading the file back yields exactly the same sequence of
(timestamp seconds, timestamp microseconds, captured length, original
length, data truncated to snaplen) in write order, in the little-endian
encoding — the only encoding the writer produces. -/
theorem claim_C5_roundtrip_little_endian (fp : String)
    (snaplen batch_size linktype : Nat) (frames : List (Nat × Nat × Bytes))
    (hs : snaplen < 4294967296) (hl : linktype < 4294967296)
    (hf : ∀ f ∈ frames, f.1 < 4294967296 ∧ f.2.1 < 4294967296 ∧
      f.2.2.length < 4294967296) :
    PcapReader.readFile
        ((writeFrames ((PcapWriter.init fp snaplen batch_size
          linktype).openFile) frames).close.fileData) =
      some ({ snaplen := snaplen, linktype := linktype }, false,
        expectedRecords snaplen 0 frames) := by
  rw [writeFrames_close_fileData frames
    ((PcapWriter.init fp snaplen batch_size linktype).openFile) rfl rfl]
  show PcapReader.readFile
      (PcapGlobalHeader.to_bytes { snaplen := snaplen, linktype := linktype }
        ++ [] ++ (frames.map (recordBytes snaplen)).flatten) = _
  rw [List.append_nil]
  rw [readFile_some (openHeader_writer snaplen linktype _ hs hl)]
  rw [List.drop_left' (global_to_bytes_length _)]
  rw [readPacketsFrom_records snaplen hs frames 0 hf]

/-- C5 witness: two concrete frames round-trip through the writer and
reader. -/
theorem claim_C5_witness :
    PcapReader.readFile
        ((writeFrames ((PcapWriter.init "f" 1518 100 1).openFile)
          [(1, 2, [9, 8, 7]), (3, 4, [])]).close.fileData) =
      some ({ snaplen := 1518, linktype := 1 }, false,
        expectedRecords 1518 0 [(1, 2, [9, 8, 7]), (3, 4, [])]) :=
  claim_C5_roundtrip_little_endian "f" 1518 100 1
    [(1, 2, [9, 8, 7]), (3, 4, [])] (by norm_num) (by norm_num) (by decide)

/-- C5 counterexample: the writer has no byte-order parameter — its
`to_bytes` serializers always pack `'<'` — so the file it produces is always
decoded by the reader with the little-endian byte order: at this concrete
frame the reader's endianness flag is `false`, never big-endian, refuting
the claim's "for the big-endian file encoding" half as a property of the
writer. -/
theorem claim_C5_counterexample :
    (PcapReader.readFile
        ((writeFrames ((PcapWriter.init "f" 1518 100 1).openFile)
          [(1, 2, [9])]).close.fileData)).map (fun x => x.2.1) =
      some false := by
  rw [claim_C5_roundtrip_little_endian "f" 1518 100 1 [(1, 2, [9])]
    (by norm_num) (by norm_num) (by decide)]
  rfl

/-! ### Heap order of the Analysis Job Scheduler (C2) -/

theorem getD_set_self (l : List AnalysisJob) {i : Nat} (hi : i < l.length)
    (x : AnalysisJob) : (l.set i x).getD i default = x := by
  simp [List.getD_eq_getElem?_getD, List.getElem?_set_self', hi]

theorem getD_set_ne (l : List AnalysisJob) {i j : Nat} (h : i ≠ j)
    (x : AnalysisJob) : (l.set i x).getD j default = l.getD j default := by
  simp [List.getD_eq_getElem?_getD, List.getElem?_set_ne h]

/-- Bubble-up move step: moving the hole from `pos` to its parent preserves
invariant A. -/
theorem siftdown_move_invA (heap : List AnalysisJob) (pos : Nat)
    (newitem : AnalysisJob) (hpos : 0 < pos) (hlen : pos < heap.length)
    (hA : siftdownInvA heap pos newitem) (hB : siftdownInvB heap pos newitem)
    (hlt : newitem.priority < (heap.getD ((pos - 1) / 2) default).priority) :
    siftdownInvA (heap.set pos (heap.getD ((pos - 1) / 2) default))
      ((pos - 1) / 2) newitem := by
  set parentpos := (pos - 1) / 2 with hpp
  set parent := heap.getD parentpos default with hpar
  have hppne : parentpos ≠ pos := by omega
  have hpplt : parentpos < heap.length := by omega
  -- getD values of the swapped virtual heap
  have hpp_val : ((heap.set pos parent).set parentpos newitem).getD parentpos
      default = newitem :=
    getD_set_self _ (by simp; omega) _
  have hpos_val : ((heap.set pos parent).set parentpos newitem).getD pos
      default = parent := by
    rw [getD_set_ne _ hppne, getD_set_self _ hlen]
  have hother : ∀ j, j ≠ pos → j ≠ parentpos →
      ((heap.set pos parent).set parentpos newitem).getD j default =
        heap.getD j default := by
    intro j hj1 hj2
    rw [getD_set_ne _ (fun hh => hj2 hh.symm), getD_set_ne _ (fun hh => hj1 hh.symm)]
  have hH : ∀ j, j ≠ pos →
      (heap.set pos newitem).getD j default = heap.getD j default := by
    intro j hj
    rw [getD_set_ne _ (fun hh => hj hh.symm)]
  have hHpos : (heap.set pos newitem).getD pos default = newitem :=
    getD_set_self _ hlen _
  intro i hi0 hilen hine
  rw [List.length_set] at hilen
  by_cases hipos : i = pos
  · subst hipos
    have hpar_i : (i - 1) / 2 = parentpos := rfl
    rw [hpar_i, hpp_val, hpos_val]
    exact le_of_lt hlt
  · by_cases hpari : (i - 1) / 2 = pos
    · -- i is a child of the old hole
      have hiub : i ≠ parentpos := by omega
      rw [hpari, hpos_val, hother i hipos hiub]
      have hb := hB hpos i hilen hpari
      rw [hH parentpos hppne, ← hpar] at hb
      rw [hH i hipos] at hb
      exact hb
    · by_cases hparpp : (i - 1) / 2 = parentpos
      · -- i is a child of the new hole (the sibling)
        rw [hparpp, hpp_val, hother i hipos hine]
        have ha := hA i hi0 hilen hipos
        rw [hparpp, hH parentpos hppne, ← hpar] at ha
        rw [hH i hipos] at ha
        exact le_trans (le_of_lt hlt) ha
      · rw [hother _ hpari hparpp, hother i hipos hine]
        have ha := hA i hi0 hilen hipos
        rw [hH _ hpari, hH i hipos] at ha
        exact ha

/-- Bubble-up move step: moving the hole from `pos` to its parent preserves
invariant B. -/
theorem siftdown_move_invB (heap : List AnalysisJob) (pos : Nat)
    (newitem : AnalysisJob) (hpos : 0 < pos) (hlen : pos < heap.length)
    (hA : siftdownInvA heap pos newitem) (hB : siftdownInvB heap pos newitem)
    (hlt : newitem.priority < (heap.getD ((pos - 1) / 2) default).priority) :
    siftdownInvB (heap.set pos (heap.getD ((pos - 1) / 2) default))
      ((pos - 1) / 2) newitem := by
  set parentpos := (pos - 1) / 2 with hpp
  set parent := heap.getD parentpos default with hpar
  have hppne : parentpos ≠ pos := by omega
  have hpplt : parentpos < heap.length := by omega
  have hpos_val : ((heap.set pos parent).set parentpos newitem).getD pos
      default = parent := by
    rw [getD_set_ne _ hppne, getD_set_self _ hlen]
  have hother : ∀ j, j ≠ pos → j ≠ parentpos →
      ((heap.set pos parent).set parentpos newitem).getD j default =
        heap.getD j default := by
    intro j hj1 hj2
    rw [getD_set_ne _ (fun hh => hj2 hh.symm), getD_set_ne _ (fun hh => hj1 hh.symm)]
  have hH : ∀ j, j ≠ pos →
      (heap.set pos newitem).getD j default = heap.getD j default := by
    intro j hj
    rw [getD_set_ne _ (fun hh => hj hh.symm)]
  intro hpp0 c hclen hcpar
  rw [List.length_set] at hclen
  have hgpne : (parentpos - 1) / 2 ≠ parentpos := by omega
  have hgpnepos : (parentpos - 1) / 2 ≠ pos := by omega
  -- the grandparent dominates the old parent
  have hga := hA parentpos hpp0 (by omega) hppne
  rw [hH _ hgpnepos, hH parentpos hppne, ← hpar] at hga
  rw [hother _ hgpnepos hgpne]
  by_cases hcpos : c = pos
  · subst hcpos
    rw [hpos_val]
    exact hga
  · have hc0 : 0 < c := by omega
    have hcnepp : c ≠ parentpos := by omega
    rw [hother c hcpos hcnepp]
    have ha := hA c hc0 hclen hcpos
    rw [hcpar, hH parentpos hppne, ← hpar, hH c hcpos] at ha
    exact le_trans hga ha

/-- The `_siftdown` bubble-up loop turns its loop invariant into the full
heap invariant. -/
theorem siftdown_heapInv :
    ∀ (pos : Nat) (heap : List AnalysisJob) (newitem : AnalysisJob),
      pos < heap.length → siftdownInvA heap pos newitem →
      siftdownInvB heap pos newitem →
      heapInv (siftdown 0 newitem heap pos) := by
  intro pos
  induction pos using Nat.strong_induction_on with
  | _ pos ih =>
    intro heap newitem hlen hA hB
    rw [siftdown]
    dsimp only
    split
    next hpos =>
      split
      next hlt =>
        have hlt' : newitem.priority <
            (heap.getD ((pos - 1) / 2) default).priority := by
          simpa [AnalysisJob.lt] using hlt
        exact ih ((pos - 1) / 2) (by omega) _ newitem
          (by rw [List.length_set]; omega)
          (siftdown_move_invA heap pos newitem hpos hlen hA hB hlt')
          (siftdown_move_invB heap pos newitem hpos hlen hA hB hlt')
      next hlt =>
        have hle : (heap.getD ((pos - 1) / 2) default).priority ≤
            newitem.priority := by
          simp only [AnalysisJob.lt, decide_eq_true_eq] at hlt
          omega
        intro i hi0 hilen
        rw [List.length_set] at hilen
        by_cases hip : i = pos
        · have h1 : (heap.set pos newitem).getD ((i - 1) / 2) default =
              heap.getD ((i - 1) / 2) default :=
            getD_set_ne heap (by omega) newitem
          have h2 : (heap.set pos newitem).getD i default = newitem := by
            rw [hip]
            exact getD_set_self heap hlen newitem
          rw [h1, h2, hip]
          exact hle
        · exact hA i hi0 hilen hip
    next hpos =>
      have hp0 : pos = 0 := by omega
      subst hp0
      intro i hi0 hilen
      rw [List.length_set] at hilen
      exact hA i hi0 hilen (by omega)

theorem getD_append_left (l : List AnalysisJob) (x : AnalysisJob) {j : Nat}
    (hj : j < l.length) : (l ++ [x]).getD j default = l.getD j default := by
  simp [List.getD_eq_getElem?_getD, List.getElem?_append_left hj]

/-- `heappush` on a heap re-establishes the heap invariant. -/
theorem heappush_heapInv (heap : List AnalysisJob) (item : AnalysisJob)
    (h : heapInv heap) : heapInv (heappush heap item) := by
  unfold heappush
  apply siftdown_heapInv heap.length (heap ++ [item]) item (by simp)
  · intro i hi0 hilen hine
    simp only [List.length_append, List.length_cons, List.length_nil] at hilen
    have hi : i < heap.length := by omega
    have hpar : (i - 1) / 2 < heap.length := by omega
    have e1 : ((heap ++ [item]).set heap.length item).getD i default =
        heap.getD i default := by
      rw [getD_set_ne _ (by omega), getD_append_left heap item hi]
    have e2 : ((heap ++ [item]).set heap.length item).getD ((i - 1) / 2)
        default = heap.getD ((i - 1) / 2) default := by
      rw [getD_set_ne _ (by omega), getD_append_left heap item hpar]
    rw [e1, e2]
    exact h i hi0 hi
  · intro hp0 c hclen hcpar
    simp only [List.length_append, List.length_cons, List.length_nil] at hclen
    omega

/-- At a leaf, the sift-to-leaf invariants give the bubble-up invariant A. -/
theorem siftup_leaf_invA (heap : List AnalysisJob) (pos : Nat)
    (newitem : AnalysisJob) (hleaf : ¬2 * pos + 1 < heap.length)
    (hC : siftupInvC heap pos) : siftdownInvA heap pos newitem := by
  intro i hi0 hilen hine
  have hipar : (i - 1) / 2 ≠ pos := by omega
  have e1 : (heap.set pos newitem).getD i default = heap.getD i default :=
    getD_set_ne _ (fun hh => hine hh.symm) _
  have e2 : (heap.set pos newitem).getD ((i - 1) / 2) default =
      heap.getD ((i - 1) / 2) default :=
    getD_set_ne _ (fun hh => hipar hh.symm) _
  rw [e1, e2]
  exact hC i hi0 hilen hine hipar

/-- At a leaf, the bubble-up invariant B is vacuous. -/
theorem siftup_leaf_invB (heap : List AnalysisJob) (pos : Nat)
    (newitem : AnalysisJob) (hleaf : ¬2 * pos + 1 < heap.length) :
    siftdownInvB heap pos newitem := by
  intro hp0 c hclen hcpar
  omega

/-- Sift-to-leaf move step: moving the hole to the chosen smaller child
preserves invariant C. -/
theorem siftup_move_invC (heap : List AnalysisJob) (pos chosen : Nat)
    (hlen : pos < heap.length) (hclen : chosen < heap.length)
    (hc0 : 0 < chosen) (hchild : (chosen - 1) / 2 = pos)
    (hmin : ∀ s, 0 < s → s < heap.length → (s - 1) / 2 = pos →
      (heap.getD chosen default).priority ≤ (heap.getD s default).priority)
    (hC : siftupInvC heap pos) (hD : siftupInvD heap pos) :
    siftupInvC (heap.set pos (heap.getD chosen default)) chosen := by
  have hposlt : pos < chosen := by omega
  intro i hi0 hilen hine hipar
  rw [List.length_set] at hilen
  by_cases hipos : i = pos
  · have hp0 : 0 < pos := by omega
    have e1 : (heap.set pos (heap.getD chosen default)).getD i default =
        heap.getD chosen default := by
      rw [hipos]
      exact getD_set_self heap hlen _
    have e2 : (heap.set pos (heap.getD chosen default)).getD ((i - 1) / 2)
        default = heap.getD ((i - 1) / 2) default :=
      getD_set_ne _ (by omega) _
    rw [e1, e2, hipos]
    exact hD hp0 chosen hclen hchild
  · by_cases hiparpos : (i - 1) / 2 = pos
    · have e1 : (heap.set pos (heap.getD chosen default)).getD i default =
          heap.getD i default := getD_set_ne _ (fun hh => hipos hh.symm) _
      have e2 : (heap.set pos (heap.getD chosen default)).getD ((i - 1) / 2)
          default = heap.getD chosen default := by
        rw [hiparpos]
        exact getD_set_self heap hlen _
      rw [e1, e2]
      exact hmin i hi0 hilen hiparpos
    · have e1 : (heap.set pos (heap.getD chosen default)).getD i default =
          heap.getD i default := getD_set_ne _ (fun hh => hipos hh.symm) _
      have e2 : (heap.set pos (heap.getD chosen default)).getD ((i - 1) / 2)
          default = heap.getD ((i - 1) / 2) default :=
        getD_set_ne _ (fun hh => hiparpos hh.symm) _
      rw [e1, e2]
      exact hC i hi0 hilen hipos hiparpos

/-- Sift-to-leaf move step: moving the hole to the chosen smaller child
preserves invariant D. -/
theorem siftup_move_invD (heap : List AnalysisJob) (pos chosen : Nat)
    (hlen : pos < heap.length) (hclen : chosen < heap.length)
    (hc0 : 0 < chosen) (hchild : (chosen - 1) / 2 = pos)
    (hC : siftupInvC heap pos) :
    siftupInvD (heap.set pos (heap.getD chosen default)) chosen := by
  have hposlt : pos < chosen := by omega
  intro h0 c hclen2 hcpar
  rw [List.length_set] at hclen2
  have hcne : c ≠ pos := by omega
  have e1 : (heap.set pos (heap.getD chosen default)).getD c default =
      heap.getD c default := getD_set_ne _ (fun hh => hcne hh.symm) _
  have e2 : (heap.set pos (heap.getD chosen default)).getD ((chosen - 1) / 2)
      default = heap.getD chosen default := by
    rw [hchild]
    exact getD_set_self heap hlen _
  rw [e1, e2]
  have hcc := hC c (by omega) hclen2 hcne (by omega)
  rw [hcpar] at hcc
  exact hcc

/-- The `_siftup` loop (sift to a leaf, then bubble up) re-establishes the
heap invariant from its loop invariants. -/
theorem siftup_heapInv :
    ∀ (fuel pos : Nat) (heap : List AnalysisJob) (newitem : AnalysisJob),
      heap.length - pos ≤ fuel → pos < heap.length →
      siftupInvC heap pos → siftupInvD heap pos →
      heapInv (siftup newitem 0 heap pos) := by
  intro fuel
  induction fuel with
  | zero =>
    intro pos heap newitem hfuel hlen hC hD
    omega
  | succ n ih =>
    intro pos heap newitem hfuel hlen hC hD
    rw [siftup]
    dsimp only
    split
    next hchild =>
      split
      next hsel =>
        obtain ⟨hrlen, hrle⟩ := hsel
        have hrle' : (heap.getD (2 * pos + 1 + 1) default).priority ≤
            (heap.getD (2 * pos + 1) default).priority := by
          simp only [AnalysisJob.lt, Bool.not_eq_true', decide_eq_false_iff_not] at hrle
          omega
        apply ih (2 * pos + 1 + 1) _ newitem
        · rw [List.length_set]
          omega
        · rw [List.length_set]
          omega
        · apply siftup_move_invC heap pos (2 * pos + 1 + 1) hlen hrlen
            (by omega) (by omega) ?_ hC hD
          intro s hs0 hslen hspar
          have hs : s = 2 * pos + 1 ∨ s = 2 * pos + 1 + 1 := by omega
          rcases hs with hs | hs
          · rw [hs]
            exact hrle'
          · rw [hs]
        · exact siftup_move_invD heap pos (2 * pos + 1 + 1) hlen hrlen
            (by omega) (by omega) hC
      next hsel =>
        apply ih (2 * pos + 1) _ newitem
        · rw [List.length_set]
          omega
        · rw [List.length_set]
          omega
        · apply siftup_move_invC heap pos (2 * pos + 1) hlen hchild
            (by omega) (by omega) ?_ hC hD
          intro s hs0 hslen hspar
          have hs : s = 2 * pos + 1 ∨ s = 2 * pos + 1 + 1 := by omega
          rcases hs with hs | hs
          · rw [hs]
          · have hlt : (heap.getD (2 * pos + 1) default).priority <
                (heap.getD (2 * pos + 1 + 1) default).priority := by
              rw [hs] at hslen
              have := hsel
              simp only [hslen, true_and, Bool.not_eq_true',
                decide_eq_false_iff_not, AnalysisJob.lt, not_not,
                decide_eq_true_eq] at this
              exact this
            rw [hs]
            exact le_of_lt hlt
        · exact siftup_move_invD heap pos (2 * pos + 1) hlen hchild
            (by omega) (by omega) hC
    next hchild =>
      exact siftdown_heapInv pos heap newitem hlen
        (siftup_leaf_invA heap pos newitem hchild hC)
        (siftup_leaf_invB heap pos newitem hchild)

theorem getD_dropLast (l : List AnalysisJob) {j : Nat} (hj : j < l.length - 1) :
    l.dropLast.getD j default = l.getD j default := by
  have h1 : j < l.dropLast.length := by
    simp only [List.length_dropLast]
    omega
  rw [List.getD_eq_getElem l.dropLast default h1, List.getElem_dropLast,
    List.getD_eq_getElem l default (by omega)]

/-- `heappop` preserves the heap invariant on the remaining heap. -/
theorem heappop_heapInv {heap : List AnalysisJob} {x : AnalysisJob}
    {h2 : List AnalysisJob} (hinv : heapInv heap)
    (hpop : heappop heap = some (x, h2)) : heapInv h2 := by
  match heap with
  | [] => cases hpop
  | a :: xs =>
    rw [heappop] at hpop
    revert hpop
    split
    next hrest =>
      intro hpop
      rw [Option.some.injEq] at hpop
      have hh2 := congrArg Prod.snd hpop
      simp only at hh2
      rw [← hh2]
      intro i hi0 hilen
      simp at hilen
    next y ys hrest =>
      intro hpop
      rw [Option.some.injEq] at hpop
      have hh2 := congrArg Prod.snd hpop
      simp only at hh2
      rw [← hh2]
      have hlen_rest : (y :: ys).length = (a :: xs).length - 1 := by
        have h3 := congrArg List.length hrest
        simp only [List.length_dropLast] at h3
        omega
    -- apply the sift-to-leaf correctness with the loop invariants from hinv
      apply siftup_heapInv
        (((y :: ys).set 0 ((a :: xs).getLast (by simp))).length)
        0 _ _ (by omega) (by simp)
      · intro i hi0 hilen hine hipar
        rw [List.length_set] at hilen
        have hilen' : i < (a :: xs).length - 1 := by omega
        have hparlt' : (i - 1) / 2 < (a :: xs).length - 1 := by omega
        have e1 : ((y :: ys).set 0 ((a :: xs).getLast (by simp))).getD i
            default = (a :: xs).getD i default := by
          rw [getD_set_ne _ (by omega), ← hrest, getD_dropLast (a :: xs) hilen']
        have e2 : ((y :: ys).set 0 ((a :: xs).getLast (by simp))).getD
            ((i - 1) / 2) default = (a :: xs).getD ((i - 1) / 2) default := by
          rw [getD_set_ne _ (by omega), ← hrest,
            getD_dropLast (a :: xs) hparlt']
        rw [e1, e2]
        exact hinv i hi0 (by omega)
      · intro h0
        omega

/-- `heappop` returns the root of the heap. -/
theorem heappop_root {heap : List AnalysisJob} {x : AnalysisJob}
    {h2 : List AnalysisJob} (hpop : heappop heap = some (x, h2)) :
    x = heap.getD 0 default := by
  match heap with
  | [] => cases hpop
  | a :: xs =>
    rw [heappop] at hpop
    revert hpop
    split
    next hrest =>
      intro hpop
      rw [Option.some.injEq] at hpop
      have hx := congrArg Prod.fst hpop
      simp only at hx
      have hxs : xs = [] := by
        have h3 := congrArg List.length hrest
        simp only [List.length_dropLast, List.length_cons, List.length_nil]
          at h3
        cases xs with
        | nil => rfl
        | cons b t => simp at h3
      subst hxs
      rw [← hx]
      rfl
    next y ys hrest =>
      intro hpop
      rw [Option.some.injEq] at hpop
      have hx := congrArg Prod.fst hpop
      simp only at hx
      rw [← hx]
      cases xs with
      | nil => simp at hrest
      | cons b t =>
        have : (a :: b :: t).dropLast = a :: (b :: t).dropLast := rfl
        rw [this] at hrest
        have ha := congrArg (fun l => List.headD l default) hrest
        simp only [List.headD_cons] at ha
        rw [ha]
        rfl

/-- In a heap, the root has minimal priority among all positions. -/
theorem root_min {heap : List AnalysisJob} (hinv : heapInv heap) :
    ∀ i, i < heap.length →
      (heap.getD 0 default).priority ≤ (heap.getD i default).priority := by
  intro i
  induction i using Nat.strong_induction_on with
  | _ i ih =>
    intro hlen
    rcases Nat.eq_zero_or_pos i with h0 | h0
    · rw [h0]
    · exact le_trans (ih ((i - 1) / 2) (by omega) (by omega)) (hinv i h0 hlen)

/-- In a heap, the root has minimal priority among all members. -/
theorem root_min_mem {heap : List AnalysisJob} (hinv : heapInv heap)
    (b : AnalysisJob) (hb : b ∈ heap) :
    (heap.getD 0 default).priority ≤ b.priority := by
  obtain ⟨i, hi, hEq⟩ := List.mem_iff_getElem.mp hb
  have hm := root_min hinv i hi
  rw [List.getD_eq_getElem heap default hi, hEq] at hm
  exact hm

theorem cons_getD_set_perm :
    ∀ (t : List AnalysisJob) (k : Nat), k < t.length → ∀ a : AnalysisJob,
      List.Perm (t.getD k default :: t.set k a) (a :: t) := by
  intro t
  induction t with
  | nil =>
    intro k hk
    simp at hk
  | cons b s ihs =>
    intro k hk a
    match k with
    | 0 =>
      simp only [List.getD_cons_zero, List.set_cons_zero]
      exact List.Perm.swap a b s
    | k + 1 =>
      simp only [List.getD_cons_succ, List.set_cons_succ]
      have s1 : List.Perm (s.getD k default :: b :: s.set k a)
          (b :: s.getD k default :: s.set k a) :=
        List.Perm.swap b (s.getD k default) (s.set k a)
      have s2 : List.Perm (b :: s.getD k default :: s.set k a) (b :: a :: s) :=
        List.Perm.cons b (ihs k (by simpa using hk) a)
      have s3 : List.Perm (b :: a :: s) (a :: b :: s) := List.Perm.swap a b s
      exact s1.trans (s2.trans s3)

theorem cons_set_comm_perm :
    ∀ (t : List AnalysisJob) (m : Nat), m < t.length → ∀ a x : AnalysisJob,
      List.Perm (x :: t.set m a) (a :: t.set m x) := by
  intro t
  induction t with
  | nil =>
    intro m hm
    simp at hm
  | cons b s ihs =>
    intro m hm a x
    match m with
    | 0 =>
      simp only [List.set_cons_zero]
      exact List.Perm.swap a x s
    | m + 1 =>
      simp only [List.set_cons_succ]
      have s1 : List.Perm (x :: b :: s.set m a) (b :: x :: s.set m a) :=
        List.Perm.swap b x (s.set m a)
      have s2 : List.Perm (b :: x :: s.set m a) (b :: a :: s.set m x) :=
        List.Perm.cons b (ihs m (by simpa using hm) a x)
      have s3 : List.Perm (b :: a :: s.set m x) (a :: b :: s.set m x) :=
        List.Perm.swap a b (s.set m x)
      exact s1.trans (s2.trans s3)

/-- Writing position `j`'s value into position `i` and a fresh value into
`j` permutes to writing the fresh value into `i` directly. -/
theorem set_set_perm :
    ∀ (l : List AnalysisJob) (i j : Nat), i < l.length → j < l.length →
      i ≠ j → ∀ x : AnalysisJob,
      List.Perm ((l.set i (l.getD j default)).set j x) (l.set i x) := by
  intro l
  induction l with
  | nil =>
    intro i j hi
    simp at hi
  | cons b s ihs =>
    intro i j hi hj hij x
    match i, j with
    | 0, 0 => omega
    | 0, k + 1 =>
      simp only [List.getD_cons_succ, List.set_cons_zero, List.set_cons_succ]
      exact cons_getD_set_perm s k (by simpa using hj) x
    | m + 1, 0 =>
      simp only [List.getD_cons_zero, List.set_cons_succ, List.set_cons_zero]
      exact cons_set_comm_perm s m (by simpa using hi) b x
    | m + 1, k + 1 =>
      simp only [List.getD_cons_succ, List.set_cons_succ]
      exact List.Perm.cons b
        (ihs m k (by simpa using hi) (by simpa using hj) (by omega) x)

/-- `_siftdown` permutes the heap with `newitem` written at the hole. -/
theorem siftdown_perm :
    ∀ (pos : Nat) (heap : List AnalysisJob) (newitem : AnalysisJob),
      pos < heap.length →
      List.Perm (siftdown 0 newitem heap pos) (heap.set pos newitem) := by
  intro pos
  induction pos using Nat.strong_induction_on with
  | _ pos ih =>
    intro heap newitem hlen
    rw [siftdown]
    dsimp only
    split
    next hpos =>
      split
      next hlt =>
        have h1 := ih ((pos - 1) / 2) (by omega)
          (heap.set pos (heap.getD ((pos - 1) / 2) default)) newitem
          (by rw [List.length_set]; omega)
        exact h1.trans
          (set_set_perm heap pos ((pos - 1) / 2) hlen (by omega) (by omega)
            newitem)
      next hlt => exact List.Perm.refl _
    next hpos => exact List.Perm.refl _

/-- `_siftup` permutes the heap with `newitem` written at the hole. -/
theorem siftup_perm :
    ∀ (fuel pos : Nat) (heap : List AnalysisJob) (newitem : AnalysisJob),
      heap.length - pos ≤ fuel → pos < heap.length →
      List.Perm (siftup newitem 0 heap pos) (heap.set pos newitem) := by
  intro fuel
  induction fuel with
  | zero =>
    intro pos heap newitem hfuel hlen
    omega
  | succ n ih =>
    intro pos heap newitem hfuel hlen
    rw [siftup]
    dsimp only
    split
    next hchild =>
      split
      next hsel =>
        have h1 := ih (2 * pos + 1 + 1)
          (heap.set pos (heap.getD (2 * pos + 1 + 1) default)) newitem
          (by rw [List.length_set]; omega) (by rw [List.length_set]; omega)
        exact h1.trans
          (set_set_perm heap pos (2 * pos + 1 + 1) hlen hsel.1 (by omega)
            newitem)
      next hsel =>
        have h1 := ih (2 * pos + 1)
          (heap.set pos (heap.getD (2 * pos + 1) default)) newitem
          (by rw [List.length_set]; omega) (by rw [List.length_set]; omega)
        exact h1.trans
          (set_set_perm heap pos (2 * pos + 1) hlen hchild (by omega) newitem)
    next hchild => exact siftdown_perm pos heap newitem hlen

theorem set_append_length (l : List AnalysisJob) (x : AnalysisJob) :
    (l ++ [x]).set l.length x = l ++ [x] := by
  induction l with
  | nil => rfl
  | cons b s ihs => simp [List.set_cons_succ, ihs]

/-- `heappush` permutes to consing the new job. -/
theorem heappush_perm (heap : List AnalysisJob) (item : AnalysisJob) :
    List.Perm (heappush heap item) (item :: heap) := by
  unfold heappush
  have h1 := siftdown_perm heap.length (heap ++ [item]) item (by simp)
  rw [set_append_length heap item] at h1
  exact h1.trans (List.perm_append_singleton item heap)

/-- `heappop` permutes: the popped job together with the remaining heap is
the original heap. -/
theorem heappop_perm {heap : List AnalysisJob} {x : AnalysisJob}
    {h2 : List AnalysisJob} (hpop : heappop heap = some (x, h2)) :
    List.Perm (x :: h2) heap := by
  match heap with
  | [] => cases hpop
  | a :: xs =>
    rw [heappop] at hpop
    revert hpop
    split
    next hrest =>
      intro hpop
      rw [Option.some.injEq] at hpop
      have hx := congrArg Prod.fst hpop
      have hh2 := congrArg Prod.snd hpop
      simp only at hx hh2
      have hxs : xs = [] := by
        have h3 := congrArg List.length hrest
        simp only [List.length_dropLast, List.length_cons, List.length_nil]
          at h3
        cases xs with
        | nil => rfl
        | cons b t => simp at h3
      subst hxs
      rw [← hx, ← hh2]
      rfl
    next y ys hrest =>
      intro hpop
      rw [Option.some.injEq] at hpop
      have hx := congrArg Prod.fst hpop
      have hh2 := congrArg Prod.snd hpop
      simp only at hx hh2
      rw [← hx, ← hh2]
      have hlast : (a :: xs).dropLast ++ [(a :: xs).getLast (by simp)] =
          a :: xs := List.dropLast_append_getLast (by simp)
      have hs1 : List.Perm
          (siftup ((a :: xs).getLast (by simp)) 0
            ((y :: ys).set 0 ((a :: xs).getLast (by simp))) 0)
          ((y :: ys).set 0 ((a :: xs).getLast (by simp))) := by
        have hp := siftup_perm
          (((y :: ys).set 0 ((a :: xs).getLast (by simp))).length) 0
          ((y :: ys).set 0 ((a :: xs).getLast (by simp)))
          ((a :: xs).getLast (by simp)) (by omega) (by simp)
        rw [List.set_set] at hp
        exact hp
      have t1 : List.Perm
          (y :: siftup ((a :: xs).getLast (by simp)) 0
            ((y :: ys).set 0 ((a :: xs).getLast (by simp))) 0)
          (y :: (y :: ys).set 0 ((a :: xs).getLast (by simp))) :=
        List.Perm.cons y hs1
      have t2 : List.Perm
          (y :: (a :: xs).getLast (by simp) :: ys)
          (y :: (ys ++ [(a :: xs).getLast (by simp)])) :=
        List.Perm.cons y (List.perm_append_singleton _ _).symm
      have t3 : a :: xs = (y :: ys) ++ [(a :: xs).getLast (by simp)] := by
        conv_lhs => rw [← hlast]
        rw [hrest]
      conv_rhs => rw [t3]
      exact t1.trans t2

/-- `heappop` returns `none` only on the empty heap. -/
theorem heappop_none {heap : List AnalysisJob} (h : heappop heap = none) :
    heap = [] := by
  match heap with
  | [] => rfl
  | a :: xs =>
    rw [heappop] at h
    revert h
    split
    · intro h
      cases h
    · intro h
      cases h

/-- `popAll` unfolding on a successful pop. -/
theorem popAll_some {heap : List AnalysisJob} {x : AnalysisJob}
    {h2 : List AnalysisJob} (h : heappop heap = some (x, h2)) :
    popAll heap = x :: popAll h2 := by
  rw [popAll]
  split
  next h' => rw [h] at h'; cases h'
  next x' h2' h' =>
    rw [h] at h'
    rw [Option.some.injEq] at h'
    have e1 := congrArg Prod.fst h'
    have e2 := congrArg Prod.snd h'
    simp only at e1 e2
    rw [e1, e2]

/-- `popAll` of the empty heap. -/
theorem popAll_nil : popAll [] = [] := by
  rw [popAll]
  split
  · rfl
  next x' h2' h' => cases h'

/-- Draining the heap yields a permutation of its contents. -/
theorem popAll_perm :
    ∀ (n : Nat) (heap : List AnalysisJob), heap.length ≤ n →
      List.Perm (popAll heap) heap := by
  intro n
  induction n with
  | zero =>
    intro heap hlen
    have : heap = [] := by
      cases heap with
      | nil => rfl
      | cons a xs => simp at hlen
    rw [this, popAll_nil]
  | succ n ih =>
    intro heap hlen
    cases hpop : heappop heap with
    | none =>
      rw [heappop_none hpop, popAll_nil]
    | some p =>
      obtain ⟨x, h2⟩ := p
      rw [popAll_some hpop]
      have hl := heappop_length hpop
      exact (List.Perm.cons x (ih h2 (by omega))).trans (heappop_perm hpop)

/-- Draining a heap that satisfies the invariant yields the jobs in
non-decreasing priority order. -/
theorem popAll_sorted :
    ∀ (n : Nat) (heap : List AnalysisJob), heap.length ≤ n → heapInv heap →
      List.Pairwise (fun a b => a.priority ≤ b.priority) (popAll heap) := by
  intro n
  induction n with
  | zero =>
    intro heap hlen _
    have : heap = [] := by
      cases heap with
      | nil => rfl
      | cons a xs => simp at hlen
    rw [this, popAll_nil]
    exact List.Pairwise.nil
  | succ n ih =>
    intro heap hlen hinv
    cases hpop : heappop heap with
    | none =>
      rw [heappop_none hpop, popAll_nil]
      exact List.Pairwise.nil
    | some p =>
      obtain ⟨x, h2⟩ := p
      rw [popAll_some hpop]
      have hl := heappop_length hpop
      constructor
      · intro b hb
        have hperm := popAll_perm n h2 (by omega)
        have hbh2 : b ∈ h2 := hperm.mem_iff.mp hb
        have hbheap : b ∈ heap :=
          (heappop_perm hpop).subset (List.mem_cons_of_mem x hbh2)
        rw [heappop_root hpop]
        exact root_min_mem hinv b hbheap
      · exact ih h2 (by omega) (heappop_heapInv hinv hpop)

theorem heapInv_nil : heapInv [] := by
  intro i hi0 hlen
  simp at hlen

/-- Pushing a job list onto a heap preserves the invariant. -/
theorem pushAll_heapInv :
    ∀ (jobs heap : List AnalysisJob), heapInv heap →
      heapInv (pushAll heap jobs) := by
  intro jobs
  induction jobs with
  | nil => exact fun heap h => h
  | cons j js ih =>
    intro heap h
    exact ih (heappush heap j) (heappush_heapInv heap j h)

/-- Pushing a job list permutes to prepending it. -/
theorem pushAll_perm :
    ∀ (jobs heap : List AnalysisJob),
      List.Perm (pushAll heap jobs) (jobs ++ heap) := by
  intro jobs
  induction jobs with
  | nil => exact fun heap => List.Perm.refl _
  | cons j js ih =>
    intro heap
    exact (ih (heappush heap j)).trans
      ((List.Perm.append_left js (heappush_perm heap j)).trans
        List.perm_middle)

/-- C2 counterexample: four equal-priority jobs enqueued a, b, c, d are
dequeued a, c, b, d — `AnalysisJob.__lt__` compares priorities only and the
`heapq` binary heap is not stable, so equal-priority jobs do not preserve
enqueue order. -/
theorem claim_C2_counterexample :
    (popAll (pushAll [] c2Jobs)).map AnalysisJob.pcap_path =
      ["a", "c", "b", "d"] ∧
    c2Jobs.map AnalysisJob.pcap_path = ["a", "b", "c", "d"] ∧
    ∀ j ∈ c2Jobs, j.priority = 0 := by
  refine ⟨?_, by simp [c2Jobs], by decide⟩
  simp [popAll, pushAll, heappop, heappush, siftup, siftdown, c2Jobs,
    AnalysisJob.lt]

/-- C2 amended: the Analysis Job Scheduler's priority queue dequeues every
set of pending jobs in ascending priority order (lower priority value
first), and the dequeued sequence is a permutation of the enqueued jobs;
jobs of equal priority come out in heap-extraction order, which need not be
their arrival order. -/
theorem claim_C2_priority_order (jobs : List AnalysisJob) :
    List.Pairwise (fun a b => a.priority ≤ b.priority)
      (popAll (pushAll [] jobs)) ∧
    List.Perm (popAll (pushAll [] jobs)) jobs := by
  constructor
  · exact popAll_sorted (pushAll [] jobs).length (pushAll [] jobs) le_rfl
      (pushAll_heapInv jobs [] heapInv_nil)
  · exact (popAll_perm (pushAll [] jobs).length (pushAll [] jobs)
      le_rfl).trans (by simpa using pushAll_perm jobs [])

end Sniff
